import Mathlib

/-!
Verification development for the filen-sdk-go repository.

This file gives a shallow embedding, in Lean, of the cryptographic and
transfer core of the Go SDK: the hash primitives and AES-256-GCM used by the
`crypto` package, the metadata envelope codec (`EncryptMeta` / `DecryptMeta`),
file-content sealing (`EncryptData` / `DecryptData`), the name hashing
(`HashFileName`), the chunked upload pipeline (`UploadFile`), the path
resolution (`FindItem`) and the download reader finalization
(`ChunkedReader.Close`).

Bytes are modelled as `List Nat` with values below 256; Go strings are
modelled as their UTF-8 byte lists.  Randomness (nonces, upload keys, UUIDs)
is threaded as explicit parameters.  Fallible Go code (errors, panics on
malformed input) is modelled with `Option`.
-/

namespace FilenProof

set_option maxRecDepth 4000000
set_option maxHeartbeats 4000000

/-! ## Byte and word utilities -/

/-- ASCII bytes of a string literal. -/
def ascii (s : String) : List Nat := s.data.map Char.toNat

/-- Truncate to a 32-bit word. -/
def u32 (x : Nat) : Nat := x % 4294967296

/-- Truncate to a 64-bit word. -/
def u64 (x : Nat) : Nat := x % 18446744073709551616

/-- Truncate to a byte. -/
def u8 (x : Nat) : Nat := x % 256

/-- Rotate a 32-bit word right by `n`. -/
def rotr32 (n x : Nat) : Nat := u32 ((x >>> n) ||| (x <<< (32 - n)))

/-- Rotate a 32-bit word left by `n`. -/
def rotl32 (n x : Nat) : Nat := u32 ((x <<< n) ||| (x >>> (32 - n)))

/-- Rotate a 64-bit word right by `n`. -/
def rotr64 (n x : Nat) : Nat := u64 ((x >>> n) ||| (x <<< (64 - n)))

/-- Big-endian bytes of a natural, `n` bytes wide. -/
def natToBytesBE (n : Nat) (x : Nat) : List Nat :=
  (List.range n).map (fun i => u8 (x >>> (8 * (n - 1 - i))))

/-- Interpret a byte list as a big-endian natural. -/
def bytesToNatBE (bs : List Nat) : Nat := bs.foldl (fun a b => a * 256 + b) 0

/-- Byte-wise xor of two byte lists (length of the shorter). -/
def xorBytes (a b : List Nat) : List Nat := List.zipWith Nat.xor a b

/-- Split a byte list into the 32-bit big-endian words of its 4-byte groups. -/
def bytesToWords32 (fuel : Nat) (bs : List Nat) : List Nat :=
  match fuel with
  | 0 => []
  | f + 1 =>
    match bs with
    | [] => []
    | _ => bytesToNatBE (bs.take 4) :: bytesToWords32 f (bs.drop 4)

/-- Split a byte list into the 64-bit big-endian words of its 8-byte groups. -/
def bytesToWords64 (fuel : Nat) (bs : List Nat) : List Nat :=
  match fuel with
  | 0 => []
  | f + 1 =>
    match bs with
    | [] => []
    | _ => bytesToNatBE (bs.take 8) :: bytesToWords64 f (bs.drop 8)

/-- Lower-case hex digit for a value below 16, as an ASCII byte. -/
def hexDigit (n : Nat) : Nat := if n < 10 then 48 + n else 87 + n

/-- Lower-case hex encoding of a byte list, as ASCII bytes
(Go `hex.EncodeToString`). -/
def hexEncode (bs : List Nat) : List Nat :=
  bs.flatMap (fun b => [hexDigit (b / 16), hexDigit (b % 16)])

/-- Value of one ASCII hex digit, upper or lower case. -/
def hexDigitValue (c : Nat) : Option Nat :=
  if 48 ≤ c ∧ c ≤ 57 then some (c - 48)
  else if 97 ≤ c ∧ c ≤ 102 then some (c - 87)
  else if 65 ≤ c ∧ c ≤ 70 then some (c - 55)
  else none

/-- Hex decoding of ASCII bytes (Go `hex.DecodeString`); fails on a stray
character or an odd length. -/
def hexDecode : List Nat → Option (List Nat)
  | [] => some []
  | [_] => none
  | c1 :: c2 :: rest => do
    let h ← hexDigitValue c1
    let l ← hexDigitValue c2
    let tail ← hexDecode rest
    pure ((h * 16 + l) :: tail)

/-- ASCII byte of one base64 alphabet index (standard alphabet). -/
def b64Char (n : Nat) : Nat :=
  if n < 26 then 65 + n
  else if n < 52 then 97 + (n - 26)
  else if n < 62 then 48 + (n - 52)
  else if n = 62 then 43 else 47

/-- Base64 index of one ASCII byte. -/
def b64CharValue (c : Nat) : Option Nat :=
  if 65 ≤ c ∧ c ≤ 90 then some (c - 65)
  else if 97 ≤ c ∧ c ≤ 122 then some (c - 71)
  else if 48 ≤ c ∧ c ≤ 57 then some (c + 4)
  else if c = 43 then some 62
  else if c = 47 then some 63
  else none

/-- Standard base64 encoding with padding (Go `base64.StdEncoding.EncodeToString`). -/
def base64Encode : List Nat → List Nat
  | [] => []
  | [a] => [b64Char (a / 4), b64Char (a % 4 * 16), 61, 61]
  | [a, b] => [b64Char (a / 4), b64Char (a % 4 * 16 + b / 16), b64Char (b % 16 * 4), 61]
  | a :: b :: c :: rest =>
    b64Char (a / 4) :: b64Char (a % 4 * 16 + b / 16) ::
      b64Char (b % 16 * 4 + c / 64) :: b64Char (c % 64) :: base64Encode rest

/-- Standard base64 decoding with padding (Go `base64.StdEncoding.DecodeString`). -/
def base64Decode : List Nat → Option (List Nat)
  | [] => some []
  | c1 :: c2 :: [61, 61] => do
    let w ← b64CharValue c1
    let x ← b64CharValue c2
    pure [w * 4 + x / 16]
  | c1 :: c2 :: c3 :: [61] => do
    let w ← b64CharValue c1
    let x ← b64CharValue c2
    let y ← b64CharValue c3
    pure [w * 4 + x / 16, x % 16 * 16 + y / 4]
  | c1 :: c2 :: c3 :: c4 :: rest => do
    let w ← b64CharValue c1
    let x ← b64CharValue c2
    let y ← b64CharValue c3
    let z ← b64CharValue c4
    let tail ← base64Decode rest
    pure ((w * 4 + x / 16) :: (x % 16 * 16 + y / 4) :: (y % 4 * 64 + z) :: tail)
  | _ => none

/-- ASCII lower-casing of a byte (the effect of Go `strings.ToLower` on
ASCII input). -/
def asciiLowerByte (c : Nat) : Nat := if 65 ≤ c ∧ c ≤ 90 then c + 32 else c

/-- ASCII lower-casing of a byte string. -/
def asciiLower (s : List Nat) : List Nat := s.map asciiLowerByte

/-- Decimal ASCII representation of a natural (Go `strconv.Itoa` on
non-negative input). -/
def natToDecimal (n : Nat) : List Nat := ascii (Nat.repr n)

/-! ## SHA-256 (FIPS 180-4), as used by Go `crypto/sha256` -/

/-- The SHA-256 round constants. -/
def sha256K : List Nat := [
  1116352408, 1899447441, 3049323471, 3921009573, 961987163, 1508970993,
  2453635748, 2870763221, 3624381080, 310598401, 607225278, 1426881987,
  1925078388, 2162078206, 2614888103, 3248222580, 3835390401, 4022224774,
  264347078, 604807628, 770255983, 1249150122, 1555081692, 1996064986,
  2554220882, 2821834349, 2952996808, 3210313671, 3336571891, 3584528711,
  113926993, 338241895, 666307205, 773529912, 1294757372, 1396182291,
  1695183700, 1986661051, 2177026350, 2456956037, 2730485921, 2820302411,
  3259730800, 3345764771, 3516065817, 3600352804, 4094571909, 275423344,
  430227734, 506948616, 659060556, 883997877, 958139571, 1322822218,
  1537002063, 1747873779, 1955562222, 2024104815, 2227730452, 2361852424,
  2428436474, 2756734187, 3204031479, 3329325298]

/-- The SHA-256 initial hash value. -/
def sha256H0 : List Nat :=
  [1779033703, 3144134277, 1013904242, 2773480762,
   1359893119, 2600822924, 528734635, 1541459225]

/-- Merkle–Damgård padding over 64-byte blocks with a 64-bit length field
(shared by SHA-1 and SHA-256). -/
def shaPad64 (msg : List Nat) : List Nat :=
  let l := msg.length
  let k := (64 + 56 - (l + 1) % 64) % 64
  msg ++ [128] ++ List.replicate k 0 ++ natToBytesBE 8 (l * 8)

/-- Extend the 16 message words to the full SHA-256 schedule. -/
def sha256ExtendW (w : List Nat) : Nat → List Nat
  | 0 => w
  | f + 1 =>
    let t := w.length
    let w15 := w.getD (t - 15) 0
    let w2 := w.getD (t - 2) 0
    let s0 := Nat.xor (Nat.xor (rotr32 7 w15) (rotr32 18 w15)) (w15 >>> 3)
    let s1 := Nat.xor (Nat.xor (rotr32 17 w2) (rotr32 19 w2)) (w2 >>> 10)
    sha256ExtendW (w ++ [u32 (w.getD (t - 16) 0 + s0 + w.getD (t - 7) 0 + s1)]) f

/-- One SHA-256 round on the state `[a, b, c, d, e, f, g, h]`. -/
def sha256Round (ws : List Nat) (st : List Nat) (t : Nat) : List Nat :=
  let a := st.getD 0 0
  let b := st.getD 1 0
  let c := st.getD 2 0
  let d := st.getD 3 0
  let e := st.getD 4 0
  let f := st.getD 5 0
  let g := st.getD 6 0
  let h := st.getD 7 0
  let bigS1 := Nat.xor (Nat.xor (rotr32 6 e) (rotr32 11 e)) (rotr32 25 e)
  let ch := Nat.xor (Nat.land e f) (Nat.land (Nat.xor e 4294967295) g)
  let t1 := u32 (h + bigS1 + ch + sha256K.getD t 0 + ws.getD t 0)
  let bigS0 := Nat.xor (Nat.xor (rotr32 2 a) (rotr32 13 a)) (rotr32 22 a)
  let mj := Nat.xor (Nat.xor (Nat.land a b) (Nat.land a c)) (Nat.land b c)
  let t2 := u32 (bigS0 + mj)
  [u32 (t1 + t2), a, b, c, u32 (d + t1), e, f, g]

/-- SHA-256 compression of one 64-byte block. -/
def sha256Compress (h : List Nat) (block : List Nat) : List Nat :=
  let ws := sha256ExtendW (bytesToWords32 16 block) 48
  let st := (List.range 64).foldl (sha256Round ws) h
  List.zipWith (fun x y => u32 (x + y)) h st

/-- Fold SHA-256 compression over the blocks of a padded message. -/
def sha256Blocks (fuel : Nat) (h : List Nat) (msg : List Nat) : List Nat :=
  match fuel with
  | 0 => h
  | f + 1 => sha256Blocks f (sha256Compress h (msg.take 64)) (msg.drop 64)

/-- SHA-256 digest (32 bytes) of a byte list. -/
def sha256 (msg : List Nat) : List Nat :=
  let p := shaPad64 msg
  (sha256Blocks (p.length / 64) sha256H0 p).flatMap (natToBytesBE 4)

/-! ## SHA-512 (FIPS 180-4), as used by Go `crypto/sha512` -/

/-- The SHA-512 round constants. -/
def sha512K : List Nat := [
  4794697086780616226, 8158064640168781261, 13096744586834688815, 16840607885511220156,
  4131703408338449720, 6480981068601479193, 10538285296894168987, 12329834152419229976,
  15566598209576043074, 1334009975649890238, 2608012711638119052, 6128411473006802146,
  8268148722764581231, 9286055187155687089, 11230858885718282805, 13951009754708518548,
  16472876342353939154, 17275323862435702243, 1135362057144423861, 2597628984639134821,
  3308224258029322869, 5365058923640841347, 6679025012923562964, 8573033837759648693,
  10970295158949994411, 12119686244451234320, 12683024718118986047, 13788192230050041572,
  14330467153632333762, 15395433587784984357, 489312712824947311, 1452737877330783856,
  2861767655752347644, 3322285676063803686, 5560940570517711597, 5996557281743188959,
  7280758554555802590, 8532644243296465576, 9350256976987008742, 10552545826968843579,
  11727347734174303076, 12113106623233404929, 14000437183269869457, 14369950271660146224,
  15101387698204529176, 15463397548674623760, 17586052441742319658, 1182934255886127544,
  1847814050463011016, 2177327727835720531, 2830643537854262169, 3796741975233480872,
  4115178125766777443, 5681478168544905931, 6601373596472566643, 7507060721942968483,
  8399075790359081724, 8693463985226723168, 9568029438360202098, 10144078919501101548,
  10430055236837252648, 11840083180663258601, 13761210420658862357, 14299343276471374635,
  14566680578165727644, 15097957966210449927, 16922976911328602910, 17689382322260857208,
  500013540394364858, 748580250866718886, 1242879168328830382, 1977374033974150939,
  2944078676154940804, 3659926193048069267, 4368137639120453308, 4836135668995329356,
  5532061633213252278, 6448918945643986474, 6902733635092675308, 7801388544844847127]

/-- The SHA-512 initial hash value. -/
def sha512H0 : List Nat :=
  [7640891576956012808, 13503953896175478587, 4354685564936845355, 11912009170470909681,
   5840696475078001361, 11170449401992604703, 2270897969802886507, 6620516959819538809]

/-- Merkle–Damgård padding over 128-byte blocks with a 128-bit length field. -/
def shaPad128 (msg : List Nat) : List Nat :=
  let l := msg.length
  let k := (128 + 112 - (l + 1) % 128) % 128
  msg ++ [128] ++ List.replicate k 0 ++ natToBytesBE 16 (l * 8)

/-- Extend the 16 message words to the full SHA-512 schedule. -/
def sha512ExtendW (w : List Nat) : Nat → List Nat
  | 0 => w
  | f + 1 =>
    let t := w.length
    let w15 := w.getD (t - 15) 0
    let w2 := w.getD (t - 2) 0
    let s0 := Nat.xor (Nat.xor (rotr64 1 w15) (rotr64 8 w15)) (w15 >>> 7)
    let s1 := Nat.xor (Nat.xor (rotr64 19 w2) (rotr64 61 w2)) (w2 >>> 6)
    sha512ExtendW (w ++ [u64 (w.getD (t - 16) 0 + s0 + w.getD (t - 7) 0 + s1)]) f

/-- One SHA-512 round on the state `[a, b, c, d, e, f, g, h]`. -/
def sha512Round (ws : List Nat) (st : List Nat) (t : Nat) : List Nat :=
  let a := st.getD 0 0
  let b := st.getD 1 0
  let c := st.getD 2 0
  let d := st.getD 3 0
  let e := st.getD 4 0
  let f := st.getD 5 0
  let g := st.getD 6 0
  let h := st.getD 7 0
  let bigS1 := Nat.xor (Nat.xor (rotr64 14 e) (rotr64 18 e)) (rotr64 41 e)
  let ch := Nat.xor (Nat.land e f) (Nat.land (Nat.xor e 18446744073709551615) g)
  let t1 := u64 (h + bigS1 + ch + sha512K.getD t 0 + ws.getD t 0)
  let bigS0 := Nat.xor (Nat.xor (rotr64 28 a) (rotr64 34 a)) (rotr64 39 a)
  let mj := Nat.xor (Nat.xor (Nat.land a b) (Nat.land a c)) (Nat.land b c)
  let t2 := u64 (bigS0 + mj)
  [u64 (t1 + t2), a, b, c, u64 (d + t1), e, f, g]

/-- SHA-512 compression of one 128-byte block. -/
def sha512Compress (h : List Nat) (block : List Nat) : List Nat :=
  let ws := sha512ExtendW (bytesToWords64 16 block) 64
  let st := (List.range 80).foldl (sha512Round ws) h
  List.zipWith (fun x y => u64 (x + y)) h st

/-- Fold SHA-512 compression over the blocks of a padded message. -/
def sha512Blocks (fuel : Nat) (h : List Nat) (msg : List Nat) : List Nat :=
  match fuel with
  | 0 => h
  | f + 1 => sha512Blocks f (sha512Compress h (msg.take 128)) (msg.drop 128)

/-- SHA-512 digest (64 bytes) of a byte list. -/
def sha512 (msg : List Nat) : List Nat :=
  let p := shaPad128 msg
  (sha512Blocks (p.length / 128) sha512H0 p).flatMap (natToBytesBE 8)

/-! ## SHA-1 (FIPS 180-4), as used by Go `crypto/sha1` -/

/-- Extend the 16 message words to the full SHA-1 schedule. -/
def sha1ExtendW (w : List Nat) : Nat → List Nat
  | 0 => w
  | f + 1 =>
    let t := w.length
    let x := Nat.xor (Nat.xor (w.getD (t - 3) 0) (w.getD (t - 8) 0))
      (Nat.xor (w.getD (t - 14) 0) (w.getD (t - 16) 0))
    sha1ExtendW (w ++ [rotl32 1 x]) f

/-- One SHA-1 round on the state `[a, b, c, d, e]`. -/
def sha1Round (ws : List Nat) (st : List Nat) (t : Nat) : List Nat :=
  let a := st.getD 0 0
  let b := st.getD 1 0
  let c := st.getD 2 0
  let d := st.getD 3 0
  let e := st.getD 4 0
  let f :=
    if t < 20 then Nat.xor (Nat.land b c) (Nat.land (Nat.xor b 4294967295) d)
    else if t < 40 then Nat.xor (Nat.xor b c) d
    else if t < 60 then Nat.xor (Nat.xor (Nat.land b c) (Nat.land b d)) (Nat.land c d)
    else Nat.xor (Nat.xor b c) d
  let k :=
    if t < 20 then 1518500249
    else if t < 40 then 1859775393
    else if t < 60 then 2400959708
    else 3395469782
  [u32 (rotl32 5 a + f + e + k + ws.getD t 0), a, rotl32 30 b, c, d]

/-- SHA-1 compression of one 64-byte block. -/
def sha1Compress (h : List Nat) (block : List Nat) : List Nat :=
  let ws := sha1ExtendW (bytesToWords32 16 block) 64
  let st := (List.range 80).foldl (sha1Round ws) h
  List.zipWith (fun x y => u32 (x + y)) h st

/-- Fold SHA-1 compression over the blocks of a padded message. -/
def sha1Blocks (fuel : Nat) (h : List Nat) (msg : List Nat) : List Nat :=
  match fuel with
  | 0 => h
  | f + 1 => sha1Blocks f (sha1Compress h (msg.take 64)) (msg.drop 64)

/-- SHA-1 digest (20 bytes) of a byte list. -/
def sha1 (msg : List Nat) : List Nat :=
  let p := shaPad64 msg
  (sha1Blocks (p.length / 64)
    [1732584193, 4023233417, 2562383102, 271733878, 3285377520] p).flatMap (natToBytesBE 4)

/-! ## MD5 (RFC 1321), as used by Go `crypto/md5` -/

/-- The MD5 sine-derived additive constants. -/
def md5T : List Nat := [
  3614090360, 3905402710, 606105819, 3250441966, 4118548399, 1200080426,
  2821735955, 4249261313, 1770035416, 2336552879, 4294925233, 2304563134,
  1804603682, 4254626195, 2792965006, 1236535329, 4129170786, 3225465664,
  643717713, 3921069994, 3593408605, 38016083, 3634488961, 3889429448,
  568446438, 3275163606, 4107603335, 1163531501, 2850285829, 4243563512,
  1735328473, 2368359562, 4294588738, 2272392833, 1839030562, 4259657740,
  2763975236, 1272893353, 4139469664, 3200236656, 681279174, 3936430074,
  3572445317, 76029189, 3654602809, 3873151461, 530742520, 3299628645,
  4096336452, 1126891415, 2878612391, 4237533241, 1700485571, 2399980690,
  4293915773, 2240044497, 1873313359, 4264355552, 2734768916, 1309151649,
  4149444226, 3174756917, 718787259, 3951481745]

/-- The MD5 per-round rotation amounts. -/
def md5Shifts : List Nat := [
  7, 12, 17, 22, 7, 12, 17, 22, 7, 12, 17, 22, 7, 12, 17, 22,
  5, 9, 14, 20, 5, 9, 14, 20, 5, 9, 14, 20, 5, 9, 14, 20,
  4, 11, 16, 23, 4, 11, 16, 23, 4, 11, 16, 23, 4, 11, 16, 23,
  6, 10, 15, 21, 6, 10, 15, 21, 6, 10, 15, 21, 6, 10, 15, 21]

/-- Little-endian bytes of a natural, `n` bytes wide. -/
def natToBytesLE (n : Nat) (x : Nat) : List Nat :=
  (List.range n).map (fun i => u8 (x >>> (8 * i)))

/-- MD5 padding: 64-byte blocks with a little-endian 64-bit length field. -/
def md5Pad (msg : List Nat) : List Nat :=
  let l := msg.length
  let k := (64 + 56 - (l + 1) % 64) % 64
  msg ++ [128] ++ List.replicate k 0 ++ natToBytesLE 8 (l * 8)

/-- Split a byte list into the 32-bit little-endian words of its 4-byte groups. -/
def bytesToWords32LE (fuel : Nat) (bs : List Nat) : List Nat :=
  match fuel with
  | 0 => []
  | f + 1 =>
    match bs with
    | [] => []
    | _ =>
      (bs.getD 0 0 + bs.getD 1 0 * 256 + bs.getD 2 0 * 65536 + bs.getD 3 0 * 16777216)
        :: bytesToWords32LE f (bs.drop 4)

/-- One MD5 round on the state `[a, b, c, d]`. -/
def md5Round (xs : List Nat) (st : List Nat) (t : Nat) : List Nat :=
  let a := st.getD 0 0
  let b := st.getD 1 0
  let c := st.getD 2 0
  let d := st.getD 3 0
  let f :=
    if t < 16 then Nat.xor (Nat.land b c) (Nat.land (Nat.xor b 4294967295) d)
    else if t < 32 then Nat.xor (Nat.land d b) (Nat.land (Nat.xor d 4294967295) c)
    else if t < 48 then Nat.xor (Nat.xor b c) d
    else Nat.xor c (Nat.lor b (Nat.xor d 4294967295))
  let g :=
    if t < 16 then t
    else if t < 32 then (5 * t + 1) % 16
    else if t < 48 then (3 * t + 5) % 16
    else 7 * t % 16
  let sum := u32 (f + a + md5T.getD t 0 + xs.getD g 0)
  [d, u32 (b + rotl32 (md5Shifts.getD t 0) sum), b, c]

/-- MD5 compression of one 64-byte block. -/
def md5Compress (h : List Nat) (block : List Nat) : List Nat :=
  let xs := bytesToWords32LE 16 block
  let st := (List.range 64).foldl (md5Round xs) h
  List.zipWith (fun x y => u32 (x + y)) h st

/-- Fold MD5 compression over the blocks of a padded message. -/
def md5Blocks (fuel : Nat) (h : List Nat) (msg : List Nat) : List Nat :=
  match fuel with
  | 0 => h
  | f + 1 => md5Blocks f (md5Compress h (msg.take 64)) (msg.drop 64)

/-- MD5 digest (16 bytes) of a byte list. -/
def md5 (msg : List Nat) : List Nat :=
  let p := md5Pad msg
  (md5Blocks (p.length / 64) [1732584193, 4023233417, 2562383102, 271733878] p).flatMap
    (natToBytesLE 4)

/-! ## HMAC and PBKDF2, as used by Go `crypto/hmac` and `golang.org/x/crypto/pbkdf2` -/

/-- Generic HMAC over a hash with the given block size. -/
def hmac (hash : List Nat → List Nat) (blockSize : Nat) (key msg : List Nat) : List Nat :=
  let key := if blockSize < key.length then hash key else key
  let key := key ++ List.replicate (blockSize - key.length) 0
  let ipad := key.map (Nat.xor 54)
  let opad := key.map (Nat.xor 92)
  hash (opad ++ hash (ipad ++ msg))

/-- HMAC-SHA256. -/
def hmacSha256 (key msg : List Nat) : List Nat := hmac sha256 64 key msg

/-- HMAC-SHA512. -/
def hmacSha512 (key msg : List Nat) : List Nat := hmac sha512 128 key msg

/-- The iterated-xor accumulation of one PBKDF2 block (`iters - 1` extra
HMAC passes on top of `u1`). -/
def pbkdf2Iter (password : List Nat) (u t : List Nat) : Nat → List Nat
  | 0 => t
  | f + 1 =>
    let u2 := hmacSha512 password u
    pbkdf2Iter password u2 (xorBytes t u2) f

/-- Blocks `1 .. fuel` of PBKDF2-HMAC-SHA512. -/
def pbkdf2Block (password salt : List Nat) (iters : Nat) (i : Nat) : List Nat :=
  let u1 := hmacSha512 password (salt ++ natToBytesBE 4 i)
  pbkdf2Iter password u1 u1 (iters - 1)

/-- PBKDF2-HMAC-SHA512 (`pbkdf2.Key` with `sha512.New`). -/
def pbkdf2Sha512 (password salt : List Nat) (iters keyLen : Nat) : List Nat :=
  (((List.range ((keyLen + 63) / 64)).map
    (fun i => pbkdf2Block password salt iters (i + 1))).flatten).take keyLen

/-! ## AES-256 (FIPS 197), as used by Go `crypto/aes` -/

/-- The AES S-box. -/
def aesSbox : List Nat := [
  99, 124, 119, 123, 242, 107, 111, 197, 48, 1, 103, 43, 254, 215, 171, 118,
  202, 130, 201, 125, 250, 89, 71, 240, 173, 212, 162, 175, 156, 164, 114, 192,
  183, 253, 147, 38, 54, 63, 247, 204, 52, 165, 229, 241, 113, 216, 49, 21,
  4, 199, 35, 195, 24, 150, 5, 154, 7, 18, 128, 226, 235, 39, 178, 117,
  9, 131, 44, 26, 27, 110, 90, 160, 82, 59, 214, 179, 41, 227, 47, 132,
  83, 209, 0, 237, 32, 252, 177, 91, 106, 203, 190, 57, 74, 76, 88, 207,
  208, 239, 170, 251, 67, 77, 51, 133, 69, 249, 2, 127, 80, 60, 159, 168,
  81, 163, 64, 143, 146, 157, 56, 245, 188, 182, 218, 33, 16, 255, 243, 210,
  205, 12, 19, 236, 95, 151, 68, 23, 196, 167, 126, 61, 100, 93, 25, 115,
  96, 129, 79, 220, 34, 42, 144, 136, 70, 238, 184, 20, 222, 94, 11, 219,
  224, 50, 58, 10, 73, 6, 36, 92, 194, 211, 172, 98, 145, 149, 228, 121,
  231, 200, 55, 109, 141, 213, 78, 169, 108, 86, 244, 234, 101, 122, 174, 8,
  186, 120, 37, 46, 28, 166, 180, 198, 232, 221, 116, 31, 75, 189, 139, 138,
  112, 62, 181, 102, 72, 3, 246, 14, 97, 53, 87, 185, 134, 193, 29, 158,
  225, 248, 152, 17, 105, 217, 142, 148, 155, 30, 135, 233, 206, 85, 40, 223,
  140, 161, 137, 13, 191, 230, 66, 104, 65, 153, 45, 15, 176, 84, 187, 22]

/-- The AES inverse S-box. -/
def aesInvSbox : List Nat := [
  82, 9, 106, 213, 48, 54, 165, 56, 191, 64, 163, 158, 129, 243, 215, 251,
  124, 227, 57, 130, 155, 47, 255, 135, 52, 142, 67, 68, 196, 222, 233, 203,
  84, 123, 148, 50, 166, 194, 35, 61, 238, 76, 149, 11, 66, 250, 195, 78,
  8, 46, 161, 102, 40, 217, 36, 178, 118, 91, 162, 73, 109, 139, 209, 37,
  114, 248, 246, 100, 134, 104, 152, 22, 212, 164, 92, 204, 93, 101, 182, 146,
  108, 112, 72, 80, 253, 237, 185, 218, 94, 21, 70, 87, 167, 141, 157, 132,
  144, 216, 171, 0, 140, 188, 211, 10, 247, 228, 88, 5, 184, 179, 69, 6,
  208, 44, 30, 143, 202, 63, 15, 2, 193, 175, 189, 3, 1, 19, 138, 107,
  58, 145, 17, 65, 79, 103, 220, 234, 151, 242, 207, 206, 240, 180, 230, 115,
  150, 172, 116, 34, 231, 173, 53, 133, 226, 249, 55, 232, 28, 117, 223, 110,
  71, 241, 26, 113, 29, 41, 197, 137, 111, 183, 98, 14, 170, 24, 190, 27,
  252, 86, 62, 75, 198, 210, 121, 32, 154, 219, 192, 254, 120, 205, 90, 244,
  31, 221, 168, 51, 136, 7, 199, 49, 177, 18, 16, 89, 39, 128, 236, 95,
  96, 81, 127, 169, 25, 181, 74, 13, 45, 229, 122, 159, 147, 201, 156, 239,
  160, 224, 59, 77, 174, 42, 245, 176, 200, 235, 187, 60, 131, 83, 153, 97,
  23, 43, 4, 126, 186, 119, 214, 38, 225, 105, 20, 99, 85, 33, 12, 125]

/-- Multiplication by 2 in GF(2^8) with the AES reduction polynomial. -/
def gfMul2 (x : Nat) : Nat := u8 (Nat.xor (x * 2) (if 128 ≤ x then 27 else 0))

/-- Multiplication by 3 in GF(2^8). -/
def gfMul3 (x : Nat) : Nat := Nat.xor (gfMul2 x) x

/-- General multiplication in GF(2^8) (Russian-peasant form), used by the
inverse MixColumns transformation. -/
def gfMulStep (p a b : Nat) : Nat → Nat
  | 0 => p
  | f + 1 =>
    let p := if b % 2 = 1 then Nat.xor p a else p
    let a := u8 (Nat.xor (a * 2) (if 128 ≤ a then 27 else 0))
    gfMulStep p a (b / 2) f

/-- Multiplication in GF(2^8). -/
def gfMul (a b : Nat) : Nat := gfMulStep 0 a b 8

/-- S-box substitution on a 32-bit word. -/
def aesSubWord (w : Nat) : Nat :=
  aesSbox.getD (u8 (w >>> 24)) 0 * 16777216 + aesSbox.getD (u8 (w >>> 16)) 0 * 65536 +
    aesSbox.getD (u8 (w >>> 8)) 0 * 256 + aesSbox.getD (u8 w) 0

/-- Left rotation of a 32-bit word by one byte. -/
def aesRotWord (w : Nat) : Nat := u32 ((w <<< 8) ||| (w >>> 24))

/-- The AES-256 round-constant words. -/
def aesRcon : List Nat := [1, 2, 4, 8, 16, 32, 64]

/-- Extension loop of the AES-256 key schedule (words 8 to 59). -/
def aes256ExpandLoop (w : List Nat) : Nat → List Nat
  | 0 => w
  | f + 1 =>
    let i := w.length
    let t := w.getD (i - 1) 0
    let t :=
      if i % 8 = 0 then Nat.xor (aesSubWord (aesRotWord t)) (aesRcon.getD (i / 8 - 1) 0 <<< 24)
      else if i % 8 = 4 then aesSubWord t
      else t
    aes256ExpandLoop (w ++ [Nat.xor (w.getD (i - 8) 0) t]) f

/-- The AES-256 key schedule: 60 words from a 32-byte key. -/
def aes256ExpandKey (key : List Nat) : List Nat :=
  aes256ExpandLoop (bytesToWords32 8 key) 52

/-- The 16 round-key bytes for round `r` of the schedule. -/
def aesRoundKey (w : List Nat) (r : Nat) : List Nat :=
  natToBytesBE 4 (w.getD (4 * r) 0) ++ natToBytesBE 4 (w.getD (4 * r + 1) 0) ++
    natToBytesBE 4 (w.getD (4 * r + 2) 0) ++ natToBytesBE 4 (w.getD (4 * r + 3) 0)

/-- SubBytes on the flat 16-byte state. -/
def aesSubBytes (st : List Nat) : List Nat := st.map (fun b => aesSbox.getD b 0)

/-- InvSubBytes on the flat 16-byte state. -/
def aesInvSubBytes (st : List Nat) : List Nat := st.map (fun b => aesInvSbox.getD b 0)

/-- ShiftRows on the flat (column-major) 16-byte state. -/
def aesShiftRows (st : List Nat) : List Nat :=
  [st.getD 0 0, st.getD 5 0, st.getD 10 0, st.getD 15 0,
   st.getD 4 0, st.getD 9 0, st.getD 14 0, st.getD 3 0,
   st.getD 8 0, st.getD 13 0, st.getD 2 0, st.getD 7 0,
   st.getD 12 0, st.getD 1 0, st.getD 6 0, st.getD 11 0]

/-- InvShiftRows on the flat (column-major) 16-byte state. -/
def aesInvShiftRows (st : List Nat) : List Nat :=
  [st.getD 0 0, st.getD 13 0, st.getD 10 0, st.getD 7 0,
   st.getD 4 0, st.getD 1 0, st.getD 14 0, st.getD 11 0,
   st.getD 8 0, st.getD 5 0, st.getD 2 0, st.getD 15 0,
   st.getD 12 0, st.getD 9 0, st.getD 6 0, st.getD 3 0]

/-- MixColumns on one 4-byte column. -/
def aesMixColumn (a0 a1 a2 a3 : Nat) : List Nat :=
  [Nat.xor (Nat.xor (gfMul2 a0) (gfMul3 a1)) (Nat.xor a2 a3),
   Nat.xor (Nat.xor a0 (gfMul2 a1)) (Nat.xor (gfMul3 a2) a3),
   Nat.xor (Nat.xor a0 a1) (Nat.xor (gfMul2 a2) (gfMul3 a3)),
   Nat.xor (Nat.xor (gfMul3 a0) a1) (Nat.xor a2 (gfMul2 a3))]

/-- MixColumns on the flat 16-byte state. -/
def aesMixColumns (st : List Nat) : List Nat :=
  aesMixColumn (st.getD 0 0) (st.getD 1 0) (st.getD 2 0) (st.getD 3 0) ++
    aesMixColumn (st.getD 4 0) (st.getD 5 0) (st.getD 6 0) (st.getD 7 0) ++
    aesMixColumn (st.getD 8 0) (st.getD 9 0) (st.getD 10 0) (st.getD 11 0) ++
    aesMixColumn (st.getD 12 0) (st.getD 13 0) (st.getD 14 0) (st.getD 15 0)

/-- InvMixColumns on one 4-byte column. -/
def aesInvMixColumn (a0 a1 a2 a3 : Nat) : List Nat :=
  [Nat.xor (Nat.xor (gfMul a0 14) (gfMul a1 11)) (Nat.xor (gfMul a2 13) (gfMul a3 9)),
   Nat.xor (Nat.xor (gfMul a0 9) (gfMul a1 14)) (Nat.xor (gfMul a2 11) (gfMul a3 13)),
   Nat.xor (Nat.xor (gfMul a0 13) (gfMul a1 9)) (Nat.xor (gfMul a2 14) (gfMul a3 11)),
   Nat.xor (Nat.xor (gfMul a0 11) (gfMul a1 13)) (Nat.xor (gfMul a2 9) (gfMul a3 14))]

/-- InvMixColumns on the flat 16-byte state. -/
def aesInvMixColumns (st : List Nat) : List Nat :=
  aesInvMixColumn (st.getD 0 0) (st.getD 1 0) (st.getD 2 0) (st.getD 3 0) ++
    aesInvMixColumn (st.getD 4 0) (st.getD 5 0) (st.getD 6 0) (st.getD 7 0) ++
    aesInvMixColumn (st.getD 8 0) (st.getD 9 0) (st.getD 10 0) (st.getD 11 0) ++
    aesInvMixColumn (st.getD 12 0) (st.getD 13 0) (st.getD 14 0) (st.getD 15 0)

/-- AddRoundKey: byte-wise xor with the round key. -/
def aesAddRoundKey (st rk : List Nat) : List Nat := xorBytes st rk

/-- The 13 middle rounds of AES-256 encryption. -/
def aes256Rounds (w : List Nat) (st : List Nat) : List Nat :=
  (List.range 13).foldl
    (fun st r => aesAddRoundKey (aesMixColumns (aesShiftRows (aesSubBytes st))) (aesRoundKey w (r + 1)))
    st

/-- AES-256 encryption of one 16-byte block. -/
def aes256EncryptBlock (key block : List Nat) : List Nat :=
  let w := aes256ExpandKey key
  let st := aesAddRoundKey block (aesRoundKey w 0)
  let st := aes256Rounds w st
  aesAddRoundKey (aesShiftRows (aesSubBytes st)) (aesRoundKey w 14)

/-- The 13 middle rounds of AES-256 decryption. -/
def aes256InvRounds (w : List Nat) (st : List Nat) : List Nat :=
  (List.range 13).foldl
    (fun st i =>
      aesInvMixColumns (aesAddRoundKey (aesInvSubBytes (aesInvShiftRows st)) (aesRoundKey w (13 - i))))
    st

/-- AES-256 decryption of one 16-byte block. -/
def aes256DecryptBlock (key block : List Nat) : List Nat :=
  let w := aes256ExpandKey key
  let st := aesAddRoundKey block (aesRoundKey w 14)
  let st := aes256InvRounds w st
  aesAddRoundKey (aesInvSubBytes (aesInvShiftRows st)) (aesRoundKey w 0)

/-! ## GCM (NIST SP 800-38D), as used by Go `crypto/cipher.NewGCM` -/

/-- The GHASH reduction constant `R = 0xe1 <<< 120`. -/
def ghashR : Nat := 225 <<< 120

/-- One step chain of the GF(2^128) multiplication: bits of `x` from the
most significant downwards. -/
def gf128MulStep (x y z v : Nat) : Nat → Nat
  | 0 => z
  | f + 1 =>
    let z := if x >>> f % 2 = 1 then Nat.xor z v else z
    let v := if v % 2 = 1 then Nat.xor (v >>> 1) ghashR else v >>> 1
    gf128MulStep x y z v f

/-- Multiplication in GF(2^128) with the GCM bit order. -/
def gf128Mul (x y : Nat) : Nat := gf128MulStep x y 0 y 128

/-- GHASH over a list of 128-bit blocks. -/
def ghashBlocks (h : Nat) (blocks : List Nat) : Nat :=
  blocks.foldl (fun y b => gf128Mul (Nat.xor y b) h) 0

/-- Split bytes into 128-bit blocks, zero-padding the last one. -/
def ghashPadBlocks (fuel : Nat) (bs : List Nat) : List Nat :=
  match fuel with
  | 0 => []
  | f + 1 =>
    match bs with
    | [] => []
    | _ => bytesToNatBE (bs.take 16 ++ List.replicate (16 - (bs.take 16).length) 0)
        :: ghashPadBlocks f (bs.drop 16)

/-- The GCM hash subkey `H = E(K, 0^128)`. -/
def gcmH (key : List Nat) : Nat := bytesToNatBE (aes256EncryptBlock key (List.replicate 16 0))

/-- The GCM pre-counter block for a 12-byte nonce: `nonce ‖ 0^31 ‖ 1`. -/
def gcmJ0 (nonce : List Nat) : Nat := bytesToNatBE nonce * 4294967296 + 1

/-- The counter block `inc32^i (J0)` as 16 bytes. -/
def gcmCounterBlock (j0 i : Nat) : List Nat :=
  natToBytesBE 16 (j0 - j0 % 4294967296 + (j0 + i) % 4294967296)

/-- Concatenation of the first `fuel` CTR keystream blocks (counters from
`inc32 (J0)`). -/
def gcmKeystreamBlocks (key : List Nat) (j0 : Nat) : Nat → List Nat
  | 0 => []
  | f + 1 => gcmKeystreamBlocks key j0 f ++ aes256EncryptBlock key (gcmCounterBlock j0 (f + 1))

/-- The first `n` bytes of the GCM CTR keystream. -/
def gcmKeystream (key : List Nat) (j0 n : Nat) : List Nat :=
  (gcmKeystreamBlocks key j0 ((n + 15) / 16)).take n

/-- GCM ciphertext: plaintext xored with the keystream. -/
def gcmCiphertext (key nonce pt : List Nat) : List Nat :=
  xorBytes pt (gcmKeystream key (gcmJ0 nonce) pt.length)

/-- The GCM authentication tag over a ciphertext (no additional data). -/
def gcmTag (key nonce ct : List Nat) : List Nat :=
  let h := gcmH key
  let s := ghashBlocks h
    (ghashPadBlocks (ct.length / 16 + 1) ct ++ [ct.length * 8])
  xorBytes (aes256EncryptBlock key (natToBytesBE 16 (gcmJ0 nonce))) (natToBytesBE 16 s)

/-- `gcm.Seal(nil, nonce, plaintext, nil)`: ciphertext followed by the
16-byte tag. -/
def gcmSeal (key nonce pt : List Nat) : List Nat :=
  let ct := gcmCiphertext key nonce pt
  ct ++ gcmTag key nonce ct

/-- `gcm.Open(nil, nonce, data, nil)`: check the tag over the leading
ciphertext and decrypt it; `none` on authentication failure. -/
def gcmOpen (key nonce data : List Nat) : Option (List Nat) :=
  if data.length < 16 then none
  else
    let ct := data.take (data.length - 16)
    let tag := data.drop (data.length - 16)
    if gcmTag key nonce ct = tag then
      some (xorBytes ct (gcmKeystream key (gcmJ0 nonce) ct.length))
    else none

/-! ## The `crypto` package of the SDK

Embedded from `src/unnamed/part_008` (the current revision of
`filen/crypto/crypto.go`) and `src/filen/crypto/util.go`.  Randomness
(`GenerateRandomString` / `GenerateRandomBytes` nonces) is passed as an
explicit `nonce` argument; the cipher state prepared by `getCipherForKey`
is replaced by keying the GCM functions directly. -/

/-- `NewEncryptedStringV2`: `"002" + nonce + base64(ciphertext‖tag)`. -/
def NewEncryptedStringV2 (encrypted nonce : List Nat) : List Nat :=
  ascii "002" ++ nonce ++ base64Encode encrypted

/-- `NewEncryptedStringV3`: `"003" + hex(nonce) + base64(ciphertext‖tag)`. -/
def NewEncryptedStringV3 (encrypted nonce : List Nat) : List Nat :=
  ascii "003" ++ hexEncode nonce ++ base64Encode encrypted

/-- `crypto.MasterKey`: the raw 64 key bytes and the 32 derived bytes. -/
structure MasterKey where
  bytes : List Nat
  derivedBytes : List Nat
  deriving DecidableEq

/-- `crypto.NewMasterKey`: derive with `pbkdf2.Key(key, key, 1, 32, sha512.New)`. -/
def NewMasterKey (key : List Nat) : MasterKey :=
  { bytes := key, derivedBytes := pbkdf2Sha512 key key 1 32 }

/-- `MasterKey.EncryptMeta`: seal with the derived key and a 12-byte nonce
(the source draws the nonce from `GenerateRandomString(12)`). -/
def MasterKey.EncryptMeta (m : MasterKey) (nonce metadata : List Nat) : List Nat :=
  NewEncryptedStringV2 (gcmSeal m.derivedBytes nonce metadata) nonce

/-- `MasterKey.DecryptMetaV2`: nonce at bytes `[3:15]`, base64 ciphertext
from byte 15 on. -/
def MasterKey.DecryptMetaV2 (m : MasterKey) (metadata : List Nat) : Option (List Nat) :=
  let nonce := (metadata.drop 3).take 12
  match base64Decode (metadata.drop 15) with
  | none => none
  | some decoded => gcmOpen m.derivedBytes nonce decoded

/-- `deriveKeyAndIV` digest loop (`filen/crypto/util.go`): iterated
`md5(prev_digest ‖ key ‖ salt)`, accumulating digests. -/
def deriveKeyAndIVLoop (key salt data acc : List Nat) : Nat → List Nat
  | 0 => acc
  | f + 1 =>
    let digest := md5 (data ++ key ++ salt)
    deriveKeyAndIVLoop key salt digest (acc ++ digest) f

/-- `deriveKeyAndIV`: the simplified `EVP_BytesToKey` schedule of
`filen/crypto/util.go`. -/
def deriveKeyAndIV (key salt : List Nat) (keyLen ivLen : Nat) : List Nat × List Nat :=
  let total := keyLen + ivLen
  let keyAndIV := (deriveKeyAndIVLoop key salt [] [] ((total + 15) / 16)).take total
  (keyAndIV.take keyLen, keyAndIV.drop keyLen)

/-- CBC decryption block loop (Go `cipher.NewCBCDecrypter` + `CryptBlocks`). -/
def cbcDecryptBlocks (key prev ct : List Nat) : Nat → List Nat
  | 0 => []
  | f + 1 =>
    let blk := ct.take 16
    xorBytes (aes256DecryptBlock key blk) prev ++ cbcDecryptBlocks key blk (ct.drop 16) f

/-- AES-256-CBC decryption of a full-block ciphertext. -/
def cbcDecrypt (key iv ct : List Nat) : List Nat :=
  cbcDecryptBlocks key iv ct (ct.length / 16)

/-- `MasterKey.DecryptMetaV1`: base64-decode, salt at `[8:16]`, ciphertext
from 16, key and IV from `deriveKeyAndIV(m.DerivedBytes, salt, 32, 16)`,
AES-256-CBC decrypt, strip the PKCS#7 padding.  Go panics the model turns
into `none`: a decoded envelope shorter than 16 bytes, a ciphertext that is
not a multiple of the block size, and an empty plaintext. -/
def MasterKey.DecryptMetaV1 (m : MasterKey) (metadata : List Nat) : Option (List Nat) :=
  match base64Decode metadata with
  | none => none
  | some decoded =>
    if decoded.length < 16 then none
    else
      let salt := (decoded.drop 8).take 8
      let cipherText := decoded.drop 16
      if cipherText.length % 16 = 0 then
        let kv := deriveKeyAndIV m.derivedBytes salt 32 16
        let plaintext := cbcDecrypt kv.1 kv.2 cipherText
        match plaintext.getLast? with
        | none => none
        | some padLen =>
          if 16 < padLen ∨ padLen = 0 then none
          else some (plaintext.take (plaintext.length - padLen))
      else none

/-- The key/IV pair `MasterKey.DecryptMetaV1` feeds to the CBC decrypter,
factored out of the envelope handling: `deriveKeyAndIV` applied to the raw
derived bytes and the salt at bytes `[8:16]` of the decoded envelope. -/
def decryptMetaV1KeyIV (m : MasterKey) (decoded : List Nat) : List Nat × List Nat :=
  deriveKeyAndIV m.derivedBytes ((decoded.drop 8).take 8) 32 16

/-- `MasterKeys.decryptMeta`: try every master key in order, return the
first success (`AllKeysFailedError` when none succeeds, modelled as `none`). -/
def decryptMetaAllKeys (f : MasterKey → List Nat → Option (List Nat)) :
    List MasterKey → List Nat → Option (List Nat)
  | [], _ => none
  | m :: rest, metadata =>
    match f m metadata with
    | some decrypted => some decrypted
    | none => decryptMetaAllKeys f rest metadata

/-- `MasterKeys.DecryptMetaV1`. -/
def MasterKeysDecryptMetaV1 (ms : List MasterKey) (metadata : List Nat) : Option (List Nat) :=
  decryptMetaAllKeys MasterKey.DecryptMetaV1 ms metadata

/-- `MasterKeys.DecryptMetaV2`. -/
def MasterKeysDecryptMetaV2 (ms : List MasterKey) (metadata : List Nat) : Option (List Nat) :=
  decryptMetaAllKeys MasterKey.DecryptMetaV2 ms metadata

/-- `MasterKeys.EncryptMeta`: encrypt with the first key of the chain (the
source indexes `(*ms)[0]` and would dereference nil on an empty chain,
modelled as `none`). -/
def MasterKeysEncryptMeta (ms : List MasterKey) (nonce metadata : List Nat) :
    Option (List Nat) :=
  match ms with
  | [] => none
  | m :: _ => some (m.EncryptMeta nonce metadata)

/-- `crypto.EncryptionKey` (v3): a 32-byte key. -/
structure EncryptionKey where
  bytes : List Nat
  deriving DecidableEq

/-- `EncryptionKey.EncryptMeta`: seal and emit a v3 envelope (the source
draws the 12 nonce bytes from `GenerateRandomBytes(12)`). -/
def EncryptionKey.EncryptMeta (k : EncryptionKey) (nonce metadata : List Nat) : List Nat :=
  NewEncryptedStringV3 (gcmSeal k.bytes nonce metadata) nonce

/-- `EncryptionKey.DecryptMeta`: require the `"003"` magic, hex-decode the
nonce at bytes `[3:27]`, then `Open` on `metadata[27:]`.  The source passes
those envelope bytes to `cipher.Open` directly, without base64-decoding
them, and this model mirrors that. -/
def EncryptionKey.DecryptMeta (k : EncryptionKey) (metadata : List Nat) : Option (List Nat) :=
  if metadata.take 3 = ascii "003" then
    match hexDecode ((metadata.drop 3).take 24) with
    | none => none
    | some nonce => gcmOpen k.bytes nonce (metadata.drop 27)
  else none

/-- `EncryptionKey.EncryptData`: a random 12-byte nonce followed by
`Seal(data)`; the stored form is `nonce ‖ ciphertext ‖ tag`. -/
def EncryptionKey.EncryptData (k : EncryptionKey) (nonce data : List Nat) : List Nat :=
  nonce ++ gcmSeal k.bytes nonce data

/-- `EncryptionKey.DecryptData`: nonce at `data[:12]`, `Open` on `data[12:]`.
The source's helper opens in place into the backing array of `data[12:]`
and discards the slice `Open` returns; `DecryptData` then returns the whole
`data[12:]` slice, whose leading bytes are now the plaintext while the bytes
past it (the 16 tag bytes) are untouched.  The model reproduces that:
`plaintext ++ rest.drop plaintext.length`.  Go panics on fewer than 12
input bytes (slice bound), modelled as `none`. -/
def EncryptionKey.DecryptData (k : EncryptionKey) (data : List Nat) : Option (List Nat) :=
  if data.length < 12 then none
  else
    let nonce := data.take 12
    let rest := data.drop 12
    match gcmOpen k.bytes nonce rest with
    | none => none
    | some pt => some (pt ++ rest.drop pt.length)

/-- `EncryptionKey.ToStringWithAuthVersion`: hex for v3, the raw bytes
otherwise. -/
def EncryptionKey.ToStringWithAuthVersion (k : EncryptionKey) (authVersion : Nat) : List Nat :=
  if authVersion = 3 then hexEncode k.bytes else k.bytes

/-- `crypto.MakeEncryptionKeyFromUnknownStr`: 32 characters are the raw key,
64 characters are hex-decoded, anything else is a key-length error. -/
def MakeEncryptionKeyFromUnknownStr (key : List Nat) : Option EncryptionKey :=
  if key.length = 32 then some ⟨key⟩
  else if key.length = 64 then (hexDecode key).map (fun bs => ⟨bs⟩)
  else none

/-! ## The `filen` package: session, envelope dispatch and name hashing

Embedded from `src/filen/filen.go` / `src/unnamed/part_011` (session),
`src/filen/transfers.go` and `src/unnamed/part_008` (the current
`HashFileName`), and `src/filen/crypto.go` (the `HMACKey` revision of
`HashFileName`).  The HTTP client is out of scope; only the cryptographic
state of a session is modelled. -/

/-- The cryptographic state of a `filen.Filen` session: the auth version,
the master-key chain (v1/v2), the DEK (v3) and — in the `crypto.go`
revision only — the dedicated 32-byte HMAC key. -/
structure Filen where
  authVersion : Nat
  masterKeys : List MasterKey
  dek : EncryptionKey
  hmacKey : List Nat
  deriving DecidableEq

/-- `Filen.EncryptMeta`: v2 encrypts with the master-key chain, v3 with the
DEK; v1 and unknown versions panic in the source (modelled as `none`). -/
def Filen.EncryptMeta (api : Filen) (nonce metadata : List Nat) : Option (List Nat) :=
  if api.authVersion = 1 then none
  else if api.authVersion = 2 then MasterKeysEncryptMeta api.masterKeys nonce metadata
  else if api.authVersion = 3 then some (api.dek.EncryptMeta nonce metadata)
  else none

/-- `Filen.DecryptMeta`: dispatch on the envelope magic — `"U2FsdGVk"` to
the v1 chain, `"002"` to the v2 chain, `"003"` to the DEK; anything else
panics in the source (modelled as `none`). -/
def Filen.DecryptMeta (api : Filen) (encrypted : List Nat) : Option (List Nat) :=
  if encrypted.take 8 = ascii "U2FsdGVk" then MasterKeysDecryptMetaV1 api.masterKeys encrypted
  else if encrypted.take 3 = ascii "002" then MasterKeysDecryptMetaV2 api.masterKeys encrypted
  else if encrypted.take 3 = ascii "003" then api.dek.DecryptMeta encrypted
  else none

/-- `Filen.HashFileName`, current revision (`src/filen/transfers.go` lines
344–359 and `src/unnamed/part_008` lines 10–25): v1/v2 is the hex SHA-1 of
the raw SHA-256 digest of the lower-cased name; the default (v3) branch is
the hex SHA-256 of the DEK bytes followed by the lower-cased name. -/
def Filen.HashFileName (api : Filen) (name : List Nat) : List Nat :=
  let name := asciiLower name
  if api.authVersion = 1 ∨ api.authVersion = 2 then
    hexEncode (sha1 (sha256 name))
  else
    hexEncode (sha256 (api.dek.bytes ++ name))

/-- Modelled from the spec: the `HMACKey.Hash` method invoked by the
`src/filen/crypto.go` revision of `HashFileName` is not among the source
files (only its caller and the serialized `HMACKey [32]byte` field are);
§4.3 of the spec specifies `hmac_sha256(key = dedicated HMACKey,
msg = lower(name))`, hex-encoded. -/
def hmacKeyHash (key msg : List Nat) : List Nat := hexEncode (hmacSha256 key msg)

/-- `Filen.HashFileName`, `src/filen/crypto.go` revision (lines 11–23):
v1/v2 is the hex SHA-1 of the *hex-encoded* SHA-512 digest of the
lower-cased name; the default (v3) branch calls `HMACKey.Hash` on the
lower-cased name. -/
def Filen.HashFileNameOld (api : Filen) (name : List Nat) : List Nat :=
  let name := asciiLower name
  if api.authVersion = 1 ∨ api.authVersion = 2 then
    hexEncode (sha1 (hexEncode (sha512 name)))
  else
    hmacKeyHash api.hmacKey name

/-! ## The download reader finalization (`ChunkedReader.Close`)

Embedded from `src/unnamed/part_010` lines 213–228.  The reader state is
reduced to what `Close` inspects: the current chunk index, the file's chunk
count and metadata hash, and the bytes delivered so far (the running
SHA-512 input). -/

/-- The `ChunkedReader` state observed by `Close`. -/
structure ChunkedReaderState where
  chunkIndex : Nat
  fileChunks : Nat
  fileHash : List Nat
  delivered : List Nat

/-- Result of `ChunkedReader.Close`: `nil` or the hash-mismatch error. -/
inductive CloseResult where
  | ok : CloseResult
  | hashMismatch (expected got : List Nat) : CloseResult
  deriving DecidableEq

/-- `ChunkedReader.Close`: cancel (a pure no-op here), skip the check on an
incomplete read, then compare the streaming SHA-512 against a non-empty
metadata hash. -/
def ChunkedReaderClose (r : ChunkedReaderState) : CloseResult :=
  if r.chunkIndex < r.fileChunks then .ok
  else if r.fileHash ≠ [] then
    let h := hexEncode (sha512 r.delivered)
    if r.fileHash ≠ h then .hashMismatch r.fileHash h else .ok
  else .ok

/-! ## Path resolution (`Filen.FindItem`)

Embedded from `src/filen/cloud.go` lines 274–310 (the revision returning a
single `FileSystemObject`).  `ReadDirectory` — a network call followed by
metadata decryption — is abstracted as an oracle from a directory UUID to
its decrypted listing; names are the decrypted entry names. -/

/-- A decrypted file entry of a directory listing. -/
structure FileEntry where
  uuid : String
  name : List Nat
  deriving DecidableEq

/-- A decrypted directory entry of a directory listing. -/
structure DirEntry where
  uuid : String
  name : List Nat
  deriving DecidableEq

/-- The object `FindItem` resolves to. -/
inductive FsObject where
  | root : FsObject
  | file (f : FileEntry) : FsObject
  | dir (d : DirEntry) : FsObject
  deriving DecidableEq

/-- A `ReadDirectory` oracle: the decrypted listing of each directory UUID,
`none` for a listing error. -/
def DirOracle := String → Option (List FileEntry × List DirEntry)

/-- The segment loop of `FindItem`.  `total` is the length of the full
segment list (Go's `len(segments)`), `idx` the index of the head segment.
The outer `none` is an error return (a listing error, or falling out of the
loop onto `errors.New("unreachable")`); `some none` is "not found";
a file match returns at once on any segment, a directory match returns on
the last segment and descends otherwise. -/
def findItemLoop (env : DirOracle) (total : Nat) :
    List (List Nat) → Nat → String → Option (Option FsObject)
  | [], _, _ => none
  | seg :: rest, idx, currentUUID =>
    if seg = [] then findItemLoop env total rest (idx + 1) currentUUID
    else
      match env currentUUID with
      | none => none
      | some (files, dirs) =>
        match files.find? (fun f => f.name == seg) with
        | some f => some (some (.file f))
        | none =>
          match dirs.find? (fun d => d.name == seg) with
          | some d =>
            if idx = total - 1 then some (some (.dir d))
            else findItemLoop env total rest (idx + 1) d.uuid
          | none => some none

/-- `Filen.FindItem`: split the path into segments (given here already
split, as Go's `strings.Split(path, "/")` produces them); an all-empty
segment list returns the base folder. -/
def Filen.FindItem (env : DirOracle) (baseFolderUUID : String)
    (segments : List (List Nat)) : Option (Option FsObject) :=
  if segments.flatten = [] then some (some .root)
  else findItemLoop env segments.length segments 0 baseFolderUUID

/-! ## The upload pipeline (`src/filen/upload.go`)

`UploadFile` is modelled as a pure function of a deterministic reader: the
`io.Reader` is the list of byte slices its successive `Read` calls return,
followed by `(0, io.EOF)`.  All chunk POSTs are assumed to succeed and
return the same `(bucket, region)`; the random upload key, `rm` string and
nonces are parameters.  The model records every `/v3/upload` chunk POST and
which finalization endpoint is called with which request. -/

/-- The chunk size: 1 MiB of plaintext (`ChunkSize` in
`src/filen/transfers.go`). -/
def ChunkSize : Nat := 1048576

/-- `types.IncompleteFile`: the client-side file description before upload.
Timestamps are milliseconds. -/
structure IncompleteFile where
  uuid : String
  name : List Nat
  mimeType : List Nat
  encryptionKey : EncryptionKey
  created : Nat
  lastModified : Nat
  parentUUID : String
  deriving DecidableEq

/-- `types.File`: an `IncompleteFile` finalized on the server. -/
structure File extends IncompleteFile where
  size : Nat
  favorited : Bool
  region : List Nat
  bucket : List Nat
  chunks : Nat
  hash : List Nat
  deriving DecidableEq

/-- `filen.FileUpload` (upload.go revision): the incomplete file plus the
random upload key. -/
structure FileUpload where
  file : IncompleteFile
  uploadKey : List Nat
  deriving DecidableEq

/-- `filen.FileMetadata` (upload.go revision): the plaintext metadata
record serialized into the encrypted `metadata` field. -/
structure FileMetadata where
  name : List Nat
  size : Nat
  mimeType : List Nat
  key : List Nat
  lastModified : Nat
  created : Nat
  hash : List Nat
  deriving DecidableEq

/-- One byte of a JSON string, escaped the way Go `encoding/json` does
(including its default HTML escaping of `<`, `>`, `&`). -/
def jsonEscapeByte (c : Nat) : List Nat :=
  if c = 34 then [92, 34]
  else if c = 92 then [92, 92]
  else if c = 10 then [92, 110]
  else if c = 13 then [92, 114]
  else if c = 9 then [92, 116]
  else if c < 32 ∨ c = 60 ∨ c = 62 ∨ c = 38 then
    ascii "\\u00" ++ [hexDigit (c / 16), hexDigit (c % 16)]
  else [c]

/-- A JSON string literal. -/
def jsonString (s : List Nat) : List Nat := [34] ++ s.flatMap jsonEscapeByte ++ [34]

/-- `json.Marshal` of a `FileMetadata` value, with the struct's tag names
in declaration order (`name, size, mime, key, lastModified, creation,
hash`). -/
def fileMetadataJson (m : FileMetadata) : List Nat :=
  ascii "\x7b\"name\":" ++ jsonString m.name ++
    ascii ",\"size\":" ++ natToDecimal m.size ++
    ascii ",\"mime\":" ++ jsonString m.mimeType ++
    ascii ",\"key\":" ++ jsonString m.key ++
    ascii ",\"lastModified\":" ++ natToDecimal m.lastModified ++
    ascii ",\"creation\":" ++ natToDecimal m.created ++
    ascii ",\"hash\":" ++ jsonString m.hash ++ ascii "\x7d"

/-- `client.V3UploadEmptyRequest`: the JSON body of `POST /v3/upload/empty`. -/
structure V3UploadEmptyRequest where
  uuid : String
  name : List Nat
  nameHashed : List Nat
  size : List Nat
  parent : String
  mimeType : List Nat
  metadata : List Nat
  version : Nat
  deriving DecidableEq

/-- `client.V3UploadDoneRequest`: the JSON body of `POST /v3/upload/done`
(the empty request embedded, plus `chunks`, `rm`, `uploadKey`). -/
structure V3UploadDoneRequest where
  base : V3UploadEmptyRequest
  chunks : Nat
  rm : List Nat
  uploadKey : List Nat
  deriving DecidableEq

/-- `Filen.makeEmptyRequestFromUploaderNoMeta`: the shared request skeleton
with size `"0"` and the metadata field left for the caller.  `ns 0` and
`ns 1` are the nonces of the two `EncryptMeta` calls; the `none` case is
the v1 `EncryptMeta` panic. -/
def Filen.makeEmptyRequestFromUploaderNoMeta (api : Filen) (ns : Nat → List Nat)
    (fu : FileUpload) : Option V3UploadEmptyRequest :=
  match api.EncryptMeta (ns 0) fu.file.name, api.EncryptMeta (ns 1) fu.file.mimeType with
  | some encName, some encMime =>
    some { uuid := fu.file.uuid
           name := encName
           nameHashed := api.HashFileName fu.file.name
           size := ascii "0"
           parent := fu.file.parentUUID
           mimeType := encMime
           metadata := []
           version := api.authVersion }
  | _, _ => none

/-- The `FileMetadata` record both finalization paths marshal. -/
def uploadFileMetadata (api : Filen) (fu : FileUpload) (size : Nat) (fileHash : List Nat) :
    FileMetadata :=
  { name := fu.file.name
    size := size
    mimeType := fu.file.mimeType
    key := fu.file.encryptionKey.ToStringWithAuthVersion api.authVersion
    lastModified := fu.file.lastModified
    created := fu.file.created
    hash := fileHash }

/-- `Filen.makeEmptyRequestFromUploader`: the skeleton with the encrypted
metadata JSON filled in (nonce `ns 2`). -/
def Filen.makeEmptyRequestFromUploader (api : Filen) (ns : Nat → List Nat)
    (fu : FileUpload) (fileHash : List Nat) : Option V3UploadEmptyRequest :=
  let metadataStr := fileMetadataJson (uploadFileMetadata api fu 0 fileHash)
  match api.makeEmptyRequestFromUploaderNoMeta ns fu, api.EncryptMeta (ns 2) metadataStr with
  | some req, some encMeta => some { req with metadata := encMeta }
  | _, _ => none

/-- `Filen.makeRequestFromUploader`: the `/v3/upload/done` request — the
skeleton with the real decimal size, `chunks = size / ChunkSize + 1`, the
upload key and the random `rm` string. -/
def Filen.makeRequestFromUploader (api : Filen) (ns : Nat → List Nat) (fu : FileUpload)
    (rm : List Nat) (size : Nat) (fileHash : List Nat) : Option V3UploadDoneRequest :=
  let metadataStr := fileMetadataJson (uploadFileMetadata api fu size fileHash)
  match api.makeEmptyRequestFromUploaderNoMeta ns fu, api.EncryptMeta (ns 2) metadataStr with
  | some req, some encMeta =>
    some { base := { req with metadata := encMeta, size := natToDecimal size }
           chunks := size / ChunkSize + 1
           uploadKey := fu.uploadKey
           rm := rm }
  | _, _ => none

/-- `Filen.completeUpload`: hex the streaming SHA-512, post
`/v3/upload/done`, and return the `File` with `chunks = size / ChunkSize + 1`. -/
def Filen.completeUpload (api : Filen) (ns : Nat → List Nat) (fu : FileUpload)
    (rm bucket region : List Nat) (size : Nat) (hasherInput : List Nat) :
    Option (V3UploadDoneRequest × File) :=
  let fileHash := hexEncode (sha512 hasherInput)
  match api.makeRequestFromUploader ns fu rm size fileHash with
  | none => none
  | some req =>
    some (req,
      { toIncompleteFile := fu.file
        size := size
        favorited := false
        region := region
        bucket := bucket
        chunks := size / ChunkSize + 1
        hash := fileHash })

/-- `Filen.completeUploadEmpty`: hex the streaming SHA-512, post
`/v3/upload/empty`, and return the `File` with zero chunks and empty
region and bucket. -/
def Filen.completeUploadEmpty (api : Filen) (ns : Nat → List Nat) (fu : FileUpload)
    (hasherInput : List Nat) : Option (V3UploadEmptyRequest × File) :=
  let fileHash := hexEncode (sha512 hasherInput)
  match api.makeEmptyRequestFromUploader ns fu fileHash with
  | none => none
  | some req =>
    some (req,
      { toIncompleteFile := fu.file
        size := 0
        favorited := false
        region := []
        bucket := []
        chunks := 0
        hash := fileHash })

/-- How an upload finished: via `POST /v3/upload/empty`, via
`POST /v3/upload/done`, or on the v1 `EncryptMeta` panic. -/
inductive UploadFinish where
  | viaEmpty (req : V3UploadEmptyRequest) (file : File) : UploadFinish
  | viaDone (req : V3UploadDoneRequest) (file : File) : UploadFinish
  | metaFailure : UploadFinish
  deriving DecidableEq

/-- The observable outcome of `UploadFile`: every `/v3/upload` chunk POST
(chunk index and encrypted body, in read order) and the finalization. -/
structure UploadOutcome where
  chunkPosts : List (Nat × List Nat)
  finish : UploadFinish
  deriving DecidableEq

/-- The read loop of `UploadFile`: each `Read` result of length > 0 is
hashed into the streaming SHA-512 and handed to an upload task (which
seals it with a fresh nonce and POSTs it under the loop index `i`); a
zero-length read still advances the index.  Returns the byte count, the
chunk POSTs and the hasher input. -/
def uploadReadLoop (key : EncryptionKey) (chunkNonce : Nat → List Nat) :
    List (List Nat) → Nat → Nat → List (Nat × List Nat) → List Nat →
    Nat × List (Nat × List Nat) × List Nat
  | [], _, size, posts, hacc => (size, posts, hacc)
  | d :: rest, i, size, posts, hacc =>
    let size := size + d.length
    if d.length ≠ 0 then
      uploadReadLoop key chunkNonce rest (i + 1) size
        (posts ++ [(i, key.EncryptData (chunkNonce i) d)]) (hacc ++ d)
    else
      uploadReadLoop key chunkNonce rest (i + 1) size posts hacc

/-- `Filen.UploadFile` (upload.go revision): run the read loop, then take
the empty path when the total is zero and the `/v3/upload/done` path
otherwise.  `reads` is the reader script; `uploadKey` and `rm` stand for
the `GenerateRandomString(32)` draws, `chunkNonce`/`ns` for the chunk and
metadata nonces, and `bucket`/`region` for the first successful chunk
response. -/
def Filen.UploadFile (api : Filen) (ns chunkNonce : Nat → List Nat)
    (uploadKey rm bucket region : List Nat) (file : IncompleteFile)
    (reads : List (List Nat)) : UploadOutcome :=
  let fu : FileUpload := { file := file, uploadKey := uploadKey }
  let res := uploadReadLoop file.encryptionKey chunkNonce reads 0 0 [] []
  let size := res.1
  let posts := res.2.1
  let hacc := res.2.2
  if size = 0 then
    match api.completeUploadEmpty ns fu hacc with
    | some rf => { chunkPosts := posts, finish := .viaEmpty rf.1 rf.2 }
    | none => { chunkPosts := posts, finish := .metaFailure }
  else
    match api.completeUpload ns fu rm bucket region size hacc with
    | some rf => { chunkPosts := posts, finish := .viaDone rf.1 rf.2 }
    | none => { chunkPosts := posts, finish := .metaFailure }

/-! ## The final return of the `transfers.go` revision of `UploadFile`

Embedded from `src/filen/transfers.go` lines 327–342 (the same structure
is duplicated in `src/filen/serialization.go` lines 589–601, without the
empty-file branch).  The pipeline stages are abstracted by their results:
the `errgroup.Wait` error, the byte count and the two finalization
results.  The context read by the final conditional is *not* a free input:
it is the context `errgroup.WithContext` derived, and
`errgroup.Group.Wait` (x/sync v0.11.0, the pinned version) cancels that
context unconditionally before returning — so by the time
`if err = ctx.Err(); err != nil` runs, `ctx.Err()` is `context.Canceled`,
never nil. -/

/-- The value `ctx.Err()` yields at the final check of `UploadFile`: the
errgroup-derived context has already been cancelled by `eg.Wait()`
(`Wait` runs `g.cancel(g.err)` unconditionally), so the read returns
`context.Canceled` — it is never nil there. -/
def ctxErrAfterWait : Option (List Nat) := some (ascii "context canceled")

/-- The tail of the `transfers.go` `UploadFile` after the pipeline goroutines
are joined, returning Go's `(*File, error)` pair.  The last conditional
mirrors lines 337–341 — `if err = ctx.Err(); err != nil { return file, nil }
else { return nil, err }` — with the `Err()` read pinned to
`ctxErrAfterWait`; its nil branch is kept to show it is dead code. -/
def transfersUploadFinish (egWaitErr : Option (List Nat)) (size : Nat)
    (emptyResult : Option File × Option (List Nat))
    (completeResult : Except (List Nat) File) : Option File × Option (List Nat) :=
  match egWaitErr with
  | some e => (none, some e)
  | none =>
    if size = 0 then emptyResult
    else
      match completeResult with
      | .error e => (none, some (ascii "complete upload: " ++ e))
      | .ok file =>
        match ctxErrAfterWait with
        | some _ => (some file, none)
        | none => (none, none)

/-! ## Support lemmas -/

theorem length_natToBytesBE (n x : Nat) : (natToBytesBE n x).length = n := by
  simp [natToBytesBE]

theorem length_xorBytes (a b : List Nat) :
    (xorBytes a b).length = min a.length b.length := by
  simp [xorBytes]

theorem xorBytes_xorBytes_cancel :
    ∀ (a b : List Nat), a.length ≤ b.length → xorBytes (xorBytes a b) b = a
  | [], _, _ => rfl
  | _ :: _, [], h => by simp at h
  | x :: a, y :: b, h => by
    simp only [xorBytes, List.zipWith_cons_cons, List.cons.injEq]
    refine ⟨?_, xorBytes_xorBytes_cancel a b (by simpa using h)⟩
    show x ^^^ y ^^^ y = x
    rw [Nat.xor_assoc, Nat.xor_self, Nat.xor_zero]

theorem length_aesRoundKey (w : List Nat) (r : Nat) : (aesRoundKey w r).length = 16 := by
  simp [aesRoundKey, length_natToBytesBE]

theorem length_aesShiftRows (st : List Nat) : (aesShiftRows st).length = 16 := by
  simp [aesShiftRows]

theorem length_aes256EncryptBlock (key block : List Nat) :
    (aes256EncryptBlock key block).length = 16 := by
  simp [aes256EncryptBlock, aesAddRoundKey, length_xorBytes, length_aesShiftRows,
    length_aesRoundKey]

theorem length_gcmKeystreamBlocks (key : List Nat) (j0 : Nat) :
    ∀ f, (gcmKeystreamBlocks key j0 f).length = 16 * f
  | 0 => rfl
  | f + 1 => by
    simp [gcmKeystreamBlocks, length_gcmKeystreamBlocks key j0 f,
      length_aes256EncryptBlock, Nat.mul_succ]

theorem length_gcmKeystream (key : List Nat) (j0 n : Nat) :
    (gcmKeystream key j0 n).length = n := by
  simp only [gcmKeystream, List.length_take, length_gcmKeystreamBlocks]
  omega

theorem length_gcmCiphertext (key nonce pt : List Nat) :
    (gcmCiphertext key nonce pt).length = pt.length := by
  simp [gcmCiphertext, length_xorBytes, length_gcmKeystream]

theorem length_gcmTag (key nonce ct : List Nat) : (gcmTag key nonce ct).length = 16 := by
  simp [gcmTag, length_xorBytes, length_natToBytesBE, length_aes256EncryptBlock]

/-- GCM round trip: opening a sealed message under the same key and nonce
authenticates and returns the plaintext. -/
theorem gcmOpen_gcmSeal (key nonce pt : List Nat) :
    gcmOpen key nonce (gcmSeal key nonce pt) = some pt := by
  have hct : (gcmCiphertext key nonce pt).length = pt.length :=
    length_gcmCiphertext key nonce pt
  have htag : (gcmTag key nonce (gcmCiphertext key nonce pt)).length = 16 :=
    length_gcmTag key nonce _
  have hlen : (gcmSeal key nonce pt).length = pt.length + 16 := by
    simp [gcmSeal, hct, htag]
  rw [gcmOpen, if_neg (by omega)]
  have hsub : (gcmSeal key nonce pt).length - 16 = (gcmCiphertext key nonce pt).length := by
    omega
  rw [hsub]
  have htake : (gcmSeal key nonce pt).take (gcmCiphertext key nonce pt).length =
      gcmCiphertext key nonce pt := List.take_left _ _
  have hdrop : (gcmSeal key nonce pt).drop (gcmCiphertext key nonce pt).length =
      gcmTag key nonce (gcmCiphertext key nonce pt) := List.drop_left _ _
  rw [htake, hdrop, if_pos rfl, hct]
  rw [gcmCiphertext, xorBytes_xorBytes_cancel]
  rw [length_gcmKeystream]

/-- The byte count the read loop returns is the total length of all reads. -/
theorem uploadReadLoop_size (key : EncryptionKey) (chunkNonce : Nat → List Nat) :
    ∀ (reads : List (List Nat)) (i size : Nat) (posts : List (Nat × List Nat))
      (hacc : List Nat),
      (uploadReadLoop key chunkNonce reads i size posts hacc).1 =
        size + (reads.map List.length).sum
  | [], _, _, _, _ => by simp [uploadReadLoop]
  | d :: rest, i, size, posts, hacc => by
    by_cases h : d.length ≠ 0
    · simp only [uploadReadLoop, if_pos h, uploadReadLoop_size key chunkNonce rest,
        List.map_cons, List.sum_cons]
      omega
    · simp only [uploadReadLoop, if_neg h, uploadReadLoop_size key chunkNonce rest,
        List.map_cons, List.sum_cons]
      omega

/-- A reader that yields zero total bytes leaves the loop state untouched
apart from the index. -/
theorem uploadReadLoop_zero (key : EncryptionKey) (chunkNonce : Nat → List Nat) :
    ∀ (reads : List (List Nat)) (i size : Nat) (posts : List (Nat × List Nat))
      (hacc : List Nat), (reads.map List.length).sum = 0 →
      uploadReadLoop key chunkNonce reads i size posts hacc = (size, posts, hacc)
  | [], _, _, _, _, _ => rfl
  | d :: rest, i, size, posts, hacc, h => by
    rw [List.map_cons, List.sum_cons] at h
    have hd : d.length = 0 := by omega
    have hrest : (rest.map List.length).sum = 0 := by omega
    have hcond : ¬ d.length ≠ 0 := by omega
    simp only [uploadReadLoop, if_neg hcond, hd, Nat.add_zero]
    exact uploadReadLoop_zero key chunkNonce rest (i + 1) size posts hacc hrest

/-- Sessions on which `EncryptMeta` cannot panic: auth version 2 with a
non-empty master-key chain, or auth version 3. -/
def MetaEncryptable (api : Filen) : Prop :=
  (api.authVersion = 2 ∧ api.masterKeys ≠ []) ∨ api.authVersion = 3

/-- On a `MetaEncryptable` session, `EncryptMeta` always produces an
envelope. -/
theorem EncryptMeta_eq_some (api : Filen) (nonce m : List Nat)
    (h : MetaEncryptable api) : ∃ e, api.EncryptMeta nonce m = some e := by
  rcases h with ⟨h2, hkeys⟩ | h3
  · cases hmk : api.masterKeys with
    | nil => exact absurd hmk hkeys
    | cons k rest =>
      exact ⟨k.EncryptMeta nonce m, by
        simp [Filen.EncryptMeta, h2, MasterKeysEncryptMeta, hmk]⟩
  · exact ⟨api.dek.EncryptMeta nonce m, by simp [Filen.EncryptMeta, h3]⟩

/-! ## Concrete instances used by counterexamples and witnesses -/

/-- A concrete 32-byte file key (all zero). -/
def exKey : EncryptionKey := ⟨List.replicate 32 0⟩

/-- A concrete v3 session: DEK bytes `0..31`, zero HMAC key. -/
def exSessionV3 : Filen :=
  { authVersion := 3, masterKeys := [], dek := ⟨List.range 32⟩
    hmacKey := List.replicate 32 0 }

/-- A concrete master key: 64 `'a'` bytes, derived by `NewMasterKey`. -/
def exMasterKey : MasterKey := NewMasterKey (List.replicate 64 97)

/-- A concrete v2 session holding only `exMasterKey`. -/
def exSessionV2 : Filen :=
  { authVersion := 2, masterKeys := [exMasterKey], dek := ⟨List.replicate 32 0⟩
    hmacKey := List.replicate 32 0 }

/-- A concrete incomplete file. -/
def exIncompleteFile : IncompleteFile :=
  { uuid := "11111111-1111-4111-8111-111111111111"
    name := ascii "hello.txt"
    mimeType := ascii "text/plain"
    encryptionKey := exKey
    created := 1700000000000
    lastModified := 1700000000000
    parentUUID := "22222222-2222-4222-8222-222222222222" }

/-- A concrete finalized file. -/
def exFile : File :=
  { toIncompleteFile := exIncompleteFile
    size := 1
    favorited := false
    region := ascii "de-1"
    bucket := ascii "filen-1"
    chunks := 1
    hash := [] }

/-! ## Claim C9 -/

/-- C9: `ChunkedReader.Close` returns a hash-mismatch error if and only if
the reader was fully consumed (`chunkIndex` reached the file's chunk
count), the file's metadata hash is non-empty, and the streaming SHA-512 of
the delivered bytes differs from it; in every other case — in particular
whenever the reader is closed before EOF — it returns nil. -/
theorem c9_close_hashMismatch_iff (r : ChunkedReaderState) :
    ChunkedReaderClose r =
      (if r.fileChunks ≤ r.chunkIndex ∧ r.fileHash ≠ [] ∧
          r.fileHash ≠ hexEncode (sha512 r.delivered)
       then CloseResult.hashMismatch r.fileHash (hexEncode (sha512 r.delivered))
       else CloseResult.ok) := by
  have hx : ChunkedReaderClose r =
      (if r.chunkIndex < r.fileChunks then CloseResult.ok
       else if r.fileHash ≠ [] then
         (if r.fileHash ≠ hexEncode (sha512 r.delivered) then
            CloseResult.hashMismatch r.fileHash (hexEncode (sha512 r.delivered))
          else CloseResult.ok)
       else CloseResult.ok) := rfl
  rw [hx]
  by_cases h1 : r.chunkIndex < r.fileChunks
  · rw [if_pos h1, if_neg (fun hc => absurd hc.1 (by omega))]
  · by_cases h2 : r.fileHash = []
    · rw [if_neg h1, if_neg (fun hc => hc h2), if_neg (fun hc => hc.2.1 h2)]
    · by_cases h3 : r.fileHash = hexEncode (sha512 r.delivered)
      · rw [if_neg h1, if_pos h2, if_neg (fun hc => hc h3), if_neg (fun hc => hc.2.2 h3)]
      · rw [if_neg h1, if_pos h2, if_pos h3, if_pos ⟨by omega, h2, h3⟩]

/-! ## Claim C10 -/

/-- C10 counterexample: at a concrete successful configuration —
`eg.Wait()` returned nil, one byte read, `completeUpload` succeeded — the
`UploadFile` tail returns the constructed `File` with a nil error, not
`(nil, nil)` as the claim states: `errgroup.Wait` has already cancelled
the derived context, so the `ctx.Err() != nil` branch is the one taken. -/
theorem c10_counterexample :
    transfersUploadFinish none 1 (none, none) (Except.ok exFile) = (some exFile, none) ∧
    transfersUploadFinish none 1 (none, none) (Except.ok exFile) ≠ (none, none) := by
  constructor
  · rfl
  · decide

/-- C10 amended: in the `transfers.go`/`serialization.go` revision of
`UploadFile`, whenever the pipeline and `completeUpload` succeed, the
final check reads `ctx.Err()` on the errgroup-derived context, which
`errgroup.Group.Wait` has already cancelled unconditionally; `ctx.Err()`
is therefore always non-nil there, and the function returns
`(file, nil)` — the constructed `File` with a nil error.  The
`return nil, err` branch (the claimed `(nil, nil)` outcome) is
unreachable. -/
theorem c10_uploadFinish_returns_file (size : Nat)
    (emptyResult : Option File × Option (List Nat)) (file : File)
    (completeResult : Except (List Nat) File)
    (hsz : size ≠ 0) (hok : completeResult = Except.ok file) :
    transfersUploadFinish none size emptyResult completeResult = (some file, none) := by
  subst hok
  simp [transfersUploadFinish, ctxErrAfterWait, hsz]

/-- Witness for C10 amended at a concrete instance. -/
theorem c10_file_witness :
    (1 : Nat) ≠ 0 ∧
    transfersUploadFinish none 1 (none, none) (Except.ok exFile) = (some exFile, none) :=
  ⟨by decide, c10_uploadFinish_returns_file 1 (none, none) exFile _ (by decide) rfl⟩

/-! ## Claim C2 -/

/-- C2 (code bug): sealing a chunk does produce `nonce ‖ ciphertext ‖ tag`
with a 12-byte nonce and a ciphertext of the plaintext's length, but
opening that sealed form with the same key returns the plaintext followed
by the 16 authentication-tag bytes — `DecryptData` returns the whole
in-place-decrypted `data[12:]` slice — so `DecryptData(EncryptData(p))`
is 16 bytes longer than `p` and never equals `p`. -/
theorem c2_encryptData_decryptData (k : EncryptionKey) (nonce pt : List Nat)
    (hn : nonce.length = 12) :
    EncryptionKey.EncryptData k nonce pt =
      nonce ++ (gcmCiphertext k.bytes nonce pt ++
        gcmTag k.bytes nonce (gcmCiphertext k.bytes nonce pt)) ∧
    (gcmCiphertext k.bytes nonce pt).length = pt.length ∧
    EncryptionKey.DecryptData k (EncryptionKey.EncryptData k nonce pt) =
      some (pt ++ gcmTag k.bytes nonce (gcmCiphertext k.bytes nonce pt)) ∧
    (pt ++ gcmTag k.bytes nonce (gcmCiphertext k.bytes nonce pt)).length =
      pt.length + 16 ∧
    EncryptionKey.DecryptData k (EncryptionKey.EncryptData k nonce pt) ≠ some pt := by
  have hct := length_gcmCiphertext k.bytes nonce pt
  have htag := length_gcmTag k.bytes nonce (gcmCiphertext k.bytes nonce pt)
  have hseal : (gcmSeal k.bytes nonce pt).length = pt.length + 16 := by
    simp [gcmSeal, hct, htag]
  have hdrop : (gcmSeal k.bytes nonce pt).drop pt.length =
      gcmTag k.bytes nonce (gcmCiphertext k.bytes nonce pt) := by
    have hs : gcmSeal k.bytes nonce pt =
        gcmCiphertext k.bytes nonce pt ++
          gcmTag k.bytes nonce (gcmCiphertext k.bytes nonce pt) := rfl
    rw [hs, List.drop_left' hct]
  have hroundtrip : EncryptionKey.DecryptData k (EncryptionKey.EncryptData k nonce pt) =
      some (pt ++ gcmTag k.bytes nonce (gcmCiphertext k.bytes nonce pt)) := by
    rw [EncryptionKey.EncryptData, EncryptionKey.DecryptData,
      if_neg (by simp [hn, hseal])]
    simp only [List.take_left' hn, List.drop_left' hn, gcmOpen_gcmSeal, hdrop]
  refine ⟨rfl, hct, hroundtrip, by simp [htag], ?_⟩
  rw [hroundtrip]
  intro heq
  have := congrArg (fun o => (Option.getD o []).length) heq
  simp [htag] at this

/-- Witness for C2 at a concrete key, nonce and plaintext. -/
theorem c2_witness :
    (List.replicate 12 0 : List Nat).length = 12 ∧
    EncryptionKey.DecryptData exKey
        (EncryptionKey.EncryptData exKey (List.replicate 12 0) (ascii "hi")) ≠
      some (ascii "hi") :=
  ⟨by decide,
    (c2_encryptData_decryptData exKey (List.replicate 12 0) (ascii "hi")
      (by decide)).2.2.2.2⟩

/-! ## Claim C3 -/

/-- C3: for every non-empty size, the chunk count `makeRequestFromUploader`
sends to `/v3/upload/done` and the chunk count `completeUpload` records on
the returned `File` both equal `size / 1048576 + 1` — Go integer division,
so an exact multiple of 1 MiB still gets the extra chunk. -/
theorem c3_chunkCount (api : Filen) (ns : Nat → List Nat) (fu : FileUpload)
    (rm bucket region hasherInput : List Nat) (size : Nat)
    (henc : MetaEncryptable api) (_hsz : 0 < size) :
    ∃ req f,
      api.makeRequestFromUploader ns fu rm size (hexEncode (sha512 hasherInput)) =
        some req ∧
      api.completeUpload ns fu rm bucket region size hasherInput = some (req, f) ∧
      req.chunks = size / 1048576 + 1 ∧
      f.chunks = size / 1048576 + 1 := by
  obtain ⟨e0, h0⟩ := EncryptMeta_eq_some api (ns 0) fu.file.name henc
  obtain ⟨e1, h1⟩ := EncryptMeta_eq_some api (ns 1) fu.file.mimeType henc
  obtain ⟨e2, h2⟩ := EncryptMeta_eq_some api (ns 2)
    (fileMetadataJson (uploadFileMetadata api fu size (hexEncode (sha512 hasherInput)))) henc
  have hreq : api.makeRequestFromUploader ns fu rm size (hexEncode (sha512 hasherInput)) =
      some { base := { uuid := fu.file.uuid, name := e0
                       nameHashed := api.HashFileName fu.file.name
                       size := natToDecimal size, parent := fu.file.parentUUID
                       mimeType := e1, metadata := e2, version := api.authVersion }
             chunks := size / ChunkSize + 1, rm := rm, uploadKey := fu.uploadKey } := by
    simp [Filen.makeRequestFromUploader, Filen.makeEmptyRequestFromUploaderNoMeta, h0, h1, h2]
  refine ⟨_, { toIncompleteFile := fu.file, size := size, favorited := false
               region := region, bucket := bucket, chunks := size / ChunkSize + 1
               hash := hexEncode (sha512 hasherInput) }, hreq, ?_, ?_, ?_⟩
  · simp [Filen.completeUpload, hreq]
  · simp [ChunkSize]
  · simp [ChunkSize]

/-- Witness for C3 at size exactly 1 MiB: both chunk counts are 2. -/
theorem c3_witness :
    MetaEncryptable exSessionV3 ∧ 0 < 1048576 ∧
    ∃ req f,
      exSessionV3.makeRequestFromUploader (fun _ => List.replicate 12 0)
          ⟨exIncompleteFile, ascii "upload-key"⟩ (ascii "rm") 1048576
          (hexEncode (sha512 [])) = some req ∧
      exSessionV3.completeUpload (fun _ => List.replicate 12 0)
          ⟨exIncompleteFile, ascii "upload-key"⟩ (ascii "rm") (ascii "b") (ascii "r")
          1048576 [] = some (req, f) ∧
      req.chunks = 2 ∧ f.chunks = 2 := by
  refine ⟨Or.inr rfl, by decide, ?_⟩
  obtain ⟨req, f, ha, hb, hc, hd⟩ := c3_chunkCount exSessionV3
    (fun _ => List.replicate 12 0) ⟨exIncompleteFile, ascii "upload-key"⟩
    (ascii "rm") (ascii "b") (ascii "r") [] 1048576 (Or.inr rfl) (by decide)
  exact ⟨req, f, ha, hb, hc.trans (by decide), hd.trans (by decide)⟩

/-! ## Claim C7 -/

/-- C7: when the reader yields zero total bytes, `UploadFile` performs no
`/v3/upload` chunk POST, finalizes through the distinct `/v3/upload/empty`
endpoint with size `"0"`, and returns a `File` with `Chunks = 0`,
`Region = ""` and `Bucket = ""`. -/
theorem c7_emptyUpload (api : Filen) (ns chunkNonce : Nat → List Nat)
    (uploadKey rm bucket region : List Nat) (file : IncompleteFile)
    (reads : List (List Nat)) (henc : MetaEncryptable api)
    (hzero : (reads.map List.length).sum = 0) :
    (api.UploadFile ns chunkNonce uploadKey rm bucket region file reads).chunkPosts = [] ∧
    ∃ req f,
      (api.UploadFile ns chunkNonce uploadKey rm bucket region file reads).finish =
        UploadFinish.viaEmpty req f ∧
      req.size = ascii "0" ∧ f.chunks = 0 ∧ f.region = [] ∧ f.bucket = [] := by
  obtain ⟨e0, h0⟩ := EncryptMeta_eq_some api (ns 0) file.name henc
  obtain ⟨e1, h1⟩ := EncryptMeta_eq_some api (ns 1) file.mimeType henc
  obtain ⟨e2, h2⟩ := EncryptMeta_eq_some api (ns 2)
    (fileMetadataJson (uploadFileMetadata api ⟨file, uploadKey⟩ 0 (hexEncode (sha512 []))))
    henc
  have hloop := uploadReadLoop_zero file.encryptionKey chunkNonce reads 0 0 [] [] hzero
  have hempty : Filen.completeUploadEmpty api ns ⟨file, uploadKey⟩ [] =
      some ({ uuid := file.uuid, name := e0
              nameHashed := api.HashFileName file.name
              size := ascii "0", parent := file.parentUUID
              mimeType := e1, metadata := e2, version := api.authVersion },
            { toIncompleteFile := file, size := 0, favorited := false
              region := [], bucket := [], chunks := 0
              hash := hexEncode (sha512 []) }) := by
    simp [Filen.completeUploadEmpty, Filen.makeEmptyRequestFromUploader,
      Filen.makeEmptyRequestFromUploaderNoMeta, h0, h1, h2]
  constructor
  · simp [Filen.UploadFile, hloop, hempty]
  · exact ⟨{ uuid := file.uuid, name := e0, nameHashed := api.HashFileName file.name
             size := ascii "0", parent := file.parentUUID, mimeType := e1
             metadata := e2, version := api.authVersion },
           { toIncompleteFile := file, size := 0, favorited := false, region := []
             bucket := [], chunks := 0, hash := hexEncode (sha512 []) },
           by simp [Filen.UploadFile, hloop, hempty], rfl, rfl, rfl, rfl⟩

/-- Witness for C7: an upload whose reader returns a single empty read. -/
theorem c7_witness :
    MetaEncryptable exSessionV3 ∧ (([[]] : List (List Nat)).map List.length).sum = 0 ∧
    (exSessionV3.UploadFile (fun _ => List.replicate 12 0) (fun _ => List.replicate 12 0)
        (ascii "upload-key") (ascii "rm") (ascii "b") (ascii "r") exIncompleteFile
        [[]]).chunkPosts = [] :=
  ⟨Or.inr rfl, by decide,
    (c7_emptyUpload exSessionV3 (fun _ => List.replicate 12 0) (fun _ => List.replicate 12 0)
      (ascii "upload-key") (ascii "rm") (ascii "b") (ascii "r") exIncompleteFile [[]]
      (Or.inr rfl) (by decide)).1⟩

/-! ## Claim C8 -/

/-- A two-level directory tree for the `FindItem` counterexample: the base
folder lists a single *file* named `"a"` and no directories. -/
def c8Env : DirOracle := fun u =>
  if u = "base" then some ([⟨"file-a", ascii "a"⟩], []) else some ([], [])

/-- C8 counterexample: on the path `"a/b"` the segment `"a"` is
intermediate (non-terminal) and names a file but no directory; the claim
says `FindItem` must not return that file, yet it does. -/
theorem c8_counterexample :
    Filen.FindItem c8Env "base" [ascii "a", ascii "b"] =
      some (some (FsObject.file ⟨"file-a", ascii "a"⟩)) ∧
    (ascii "b").length ≠ 0 := by
  constructor
  · rfl
  · decide

/-- C8 amended: `FindItem` matches files on *every* segment, not only the
last one — whenever the first segment of the remaining path is non-empty
and some file of the current listing carries its name, that file is
returned at once, regardless of the segments that follow (files are also
checked before directories). -/
theorem c8_findItem_returns_file_on_any_segment (env : DirOracle) (base : String)
    (seg : List Nat) (rest : List (List Nat)) (files : List FileEntry)
    (dirs : List DirEntry) (f : FileEntry)
    (hseg : seg ≠ []) (henv : env base = some (files, dirs))
    (hfind : files.find? (fun fe => fe.name == seg) = some f) :
    Filen.FindItem env base (seg :: rest) = some (some (FsObject.file f)) := by
  have hflat : (seg :: rest).flatten ≠ [] := by
    cases seg with
    | nil => exact absurd rfl hseg
    | cons a s => simp [List.flatten]
  rw [Filen.FindItem, if_neg hflat, findItemLoop, if_neg hseg, henv]
  simp only [hfind]

/-- Witness for C8 amended at the concrete tree of the counterexample. -/
theorem c8_witness :
    (ascii "a" ≠ [] ∧ c8Env "base" = some ([⟨"file-a", ascii "a"⟩], []) ∧
      List.find? (fun fe => fe.name == ascii "a") [(⟨"file-a", ascii "a"⟩ : FileEntry)] =
        some ⟨"file-a", ascii "a"⟩) ∧
    Filen.FindItem c8Env "base" [ascii "a", ascii "b"] =
      some (some (FsObject.file ⟨"file-a", ascii "a"⟩)) :=
  ⟨⟨by decide, by decide, by decide⟩,
    c8_findItem_returns_file_on_any_segment c8Env "base" (ascii "a") [ascii "b"]
      [⟨"file-a", ascii "a"⟩] [] ⟨"file-a", ascii "a"⟩ (by decide) (by decide) (by decide)⟩

/-! ## Claim C4 -/

/-- C4 counterexample: under the current v1/v2 rule
`sha1(sha256(lower(name)))` (raw inner digest), `HashFileName("abc")` is
*not* the golden value `5c5a4ad792911a5a58741e16257f62b664aa2df3` — that
value belongs to the older `sha1(hex(sha512(lower(name))))` rule, which is
also what the in-repo test `TestHashFileName` expects. -/
theorem c4_counterexample :
    Filen.HashFileName exSessionV2 (ascii "abc") ≠
      ascii "5c5a4ad792911a5a58741e16257f62b664aa2df3" := by
  decide

/-- C4 amended: under auth version 1 or 2 the current `HashFileName` is the
hex SHA-1 of the raw SHA-256 of the lower-cased name, case-insensitive,
with `HashFileName("abc") = 89066b1719b7cf4017a2f59c9109858455bc2c2a`; the
golden value `5c5a4ad792911a5a58741e16257f62b664aa2df3` is produced by the
older `crypto.go` revision, whose rule is the hex SHA-1 of the hex-encoded
SHA-512 of the lower-cased name. -/
theorem c4_hashFileName_amended (api : Filen) (name : List Nat)
    (h : api.authVersion = 1 ∨ api.authVersion = 2) :
    api.HashFileName name = hexEncode (sha1 (sha256 (asciiLower name))) ∧
    api.HashFileName (ascii "abc") = ascii "89066b1719b7cf4017a2f59c9109858455bc2c2a" ∧
    api.HashFileName (ascii "ABC") = api.HashFileName (ascii "abc") ∧
    api.HashFileNameOld (ascii "abc") =
      ascii "5c5a4ad792911a5a58741e16257f62b664aa2df3" ∧
    api.HashFileNameOld (ascii "ABC") = api.HashFileNameOld (ascii "abc") := by
  have hlower : asciiLower (ascii "ABC") = asciiLower (ascii "abc") := by decide
  refine ⟨?_, ?_, ?_, ?_, ?_⟩
  · simp only [Filen.HashFileName, if_pos h]
  · simp only [Filen.HashFileName, if_pos h]
    decide
  · simp only [Filen.HashFileName, hlower]
  · simp only [Filen.HashFileNameOld, if_pos h]
    decide
  · simp only [Filen.HashFileNameOld, hlower]

/-- Witness for C4 amended at the concrete v2 session. -/
theorem c4_witness :
    (exSessionV2.authVersion = 1 ∨ exSessionV2.authVersion = 2) ∧
    Filen.HashFileName exSessionV2 (ascii "abc") =
      ascii "89066b1719b7cf4017a2f59c9109858455bc2c2a" :=
  ⟨Or.inr rfl,
    (c4_hashFileName_amended exSessionV2 (ascii "x") (Or.inr rfl)).2.1⟩

/-! ## Claim C5 -/

/-- A concrete base64-decoded v1 envelope: the `Salted__` magic, the salt
`ABCDEFGH`, and 16 zero ciphertext bytes. -/
def c5Decoded : List Nat := ascii "Salted__" ++ ascii "ABCDEFGH" ++ List.replicate 16 0

/-- C5 counterexample: the key/IV pair `DecryptMetaV1` derives (from the
*raw* 32 derived bytes) differs from the pair the claim prescribes (from
the hex-encoded 64 ASCII characters of the derived bytes) at a concrete
master key and envelope. -/
theorem c5_counterexample :
    decryptMetaV1KeyIV exMasterKey c5Decoded ≠
      deriveKeyAndIV (hexEncode exMasterKey.derivedBytes)
        ((c5Decoded.drop 8).take 8) 32 16 := by
  decide

/-- C5 amended: `DecryptMetaV1` derives the AES-256-CBC key and IV with the
MD5 `EVP_BytesToKey` schedule, key length 32 and IV length 16, salted by
bytes `[8:16]` of the base64-decoded envelope — but the password input is
the *raw* 32 derived bytes of the master key, not their hex encoding; the
rest of the function CBC-decrypts `decoded[16:]` with that pair and strips
the PKCS#7 padding. -/
theorem c5_decryptMetaV1_amended (m : MasterKey) (metadata decoded : List Nat)
    (hdec : base64Decode metadata = some decoded) (hlen : 16 ≤ decoded.length)
    (hblocks : (decoded.drop 16).length % 16 = 0) :
    MasterKey.DecryptMetaV1 m metadata =
      (let kv := deriveKeyAndIV m.derivedBytes ((decoded.drop 8).take 8) 32 16
       let plaintext := cbcDecrypt kv.1 kv.2 (decoded.drop 16)
       match plaintext.getLast? with
       | none => none
       | some padLen =>
         if 16 < padLen ∨ padLen = 0 then none
         else some (plaintext.take (plaintext.length - padLen))) := by
  rw [MasterKey.DecryptMetaV1, hdec]
  simp only [if_neg (by omega : ¬ decoded.length < 16), if_pos hblocks]

/-- Witness for C5 amended at the concrete envelope of the counterexample. -/
theorem c5_witness :
    (base64Decode (base64Encode c5Decoded) = some c5Decoded ∧
      16 ≤ c5Decoded.length ∧ (c5Decoded.drop 16).length % 16 = 0) ∧
    MasterKey.DecryptMetaV1 exMasterKey (base64Encode c5Decoded) =
      (let kv := deriveKeyAndIV exMasterKey.derivedBytes
        ((c5Decoded.drop 8).take 8) 32 16
       let plaintext := cbcDecrypt kv.1 kv.2 (c5Decoded.drop 16)
       match plaintext.getLast? with
       | none => none
       | some padLen =>
         if 16 < padLen ∨ padLen = 0 then none
         else some (plaintext.take (plaintext.length - padLen))) :=
  ⟨⟨by decide, by decide, by decide⟩,
    c5_decryptMetaV1_amended exMasterKey (base64Encode c5Decoded) c5Decoded
      (by decide) (by decide) (by decide)⟩

/-! ## Claim C6 -/

/-- C6 counterexample: the v3 branch of the source's `HashFileName`
computes a plain `sha256(DEK ‖ lower(name))`, which is *not* HMAC-SHA256
under the DEK, nor under the (equal, here) dedicated HMAC key, at a
concrete session and name. -/
theorem c6_counterexample :
    Filen.HashFileName exSessionV3 (ascii "abc") ≠
      hexEncode (hmacSha256 exSessionV3.dek.bytes (asciiLower (ascii "abc"))) ∧
    Filen.HashFileName exSessionV3 (ascii "abc") ≠
      hexEncode (hmacSha256 exSessionV3.hmacKey (asciiLower (ascii "abc"))) := by
  constructor
  · decide
  · decide

/-- C6 amended: in v3 the current (`transfers.go`/`part_008`) revision
hashes names as hex `sha256(DEK bytes ‖ lower(name))` — a keyed plain hash,
not HMAC — while the `crypto.go` revision hashes with the `HMACKey`, whose
absent implementation is modelled from the spec as hex HMAC-SHA256 of the
lower-cased name under the dedicated 32-byte key. -/
theorem c6_hashFileNameV3_amended (api : Filen) (name : List Nat)
    (h3 : api.authVersion = 3) :
    api.HashFileName name = hexEncode (sha256 (api.dek.bytes ++ asciiLower name)) ∧
    api.HashFileNameOld name = hmacKeyHash api.hmacKey (asciiLower name) ∧
    hmacKeyHash api.hmacKey (asciiLower name) =
      hexEncode (hmacSha256 api.hmacKey (asciiLower name)) := by
  have hne : ¬ (api.authVersion = 1 ∨ api.authVersion = 2) := by omega
  refine ⟨?_, ?_, rfl⟩
  · simp only [Filen.HashFileName, if_neg hne]
  · simp only [Filen.HashFileNameOld, if_neg hne]

/-- Witness for C6 amended at the concrete v3 session. -/
theorem c6_witness :
    exSessionV3.authVersion = 3 ∧
    Filen.HashFileName exSessionV3 (ascii "abc") =
      hexEncode (sha256 (exSessionV3.dek.bytes ++ asciiLower (ascii "abc"))) :=
  ⟨rfl, (c6_hashFileNameV3_amended exSessionV3 (ascii "abc") rfl).1⟩

/-! ## Claim C1 -/

/-- C1 (code bug): at a concrete v2 session the metadata round trip
succeeds — `DecryptMeta (EncryptMeta m) = m`, the `"002"` envelope sealed
with the chain's first master key decrypts through the chain — but at a
concrete v3 session the round trip *fails*: `EncryptMeta` emits
`"003" + hex(nonce) + base64(ciphertext‖tag)` while `DecryptMeta` hands
the base64 text itself (never decoded) to GCM `Open`, so the tag check
rejects every envelope the session itself produced. -/
theorem c1_metaRoundtrip_v2_ok_v3_fails :
    (Filen.EncryptMeta exSessionV2 (ascii "abcdefghijkl") (ascii "meta")).bind
        (Filen.DecryptMeta exSessionV2) = some (ascii "meta") ∧
    (Filen.EncryptMeta exSessionV3 (List.range 12) (ascii "meta")).bind
        (Filen.DecryptMeta exSessionV3) = none := by
  constructor
  · decide
  · decide

end FilenProof

